import Mathlib

/-!
# envdefs: `ReadDefaults`

A shallow embedding of `defs.go` (Go package `defaults`) and theorems about it.

`ReadDefaults` walks the exported fields of a struct through reflection and fills
each leaf from the process environment, keeping the value already stored in the
field when the variable is not set.

Modelling conventions.

* Go strings are Lean `String`s (sequences of Unicode scalars).
* The process environment is the function `os.LookupEnv`, of type `Env`.
* A reflected struct is a list of `(StructField, Value)` pairs: the field
  descriptor (`reflect.StructField`) and its current content (`reflect.Value`).
  Pointed-to structs are owned by their pointer field: aliased or cyclic pointers
  are outside the model.
* `setDefault` and `reflectStruct` mutate the struct in place and return an
  `error`; here they return the new content together with an `Outcome`, which is
  `ok` (a nil error), `err e`, or `panic` when the Go run time panics.
* Library routines whose code is not part of the repository and is not needed in
  detail (`strcase`, `strconv.ParseFloat`, `time.ParseDuration`, the size of
  `int`) are the fields of a `Host`; the theorems hold for every host.
-/

namespace Defaults

/-! ## Go library routines used by `defs.go` -/

/-- The function `os.LookupEnv`: `none` when the variable is not set. -/
abbrev Env := String → Option String

/-- The two sentinel errors of package `strconv`. -/
inductive NumErrKind where
  | syntaxErr
  | rangeErr
deriving DecidableEq, Repr

/-- A `*strconv.NumError`: the failing function, the input and the reason. -/
structure NumError where
  Func : String
  Num : String
  Err : NumErrKind
deriving DecidableEq, Repr

/-- The digit loop of `strconv.ParseUint` for base 10: `cutoff` is
`maxUint64/10 + 1` and `maxVal` is `1<<bitSize - 1`. A byte that is not a
decimal digit is a syntax error, an overflow is a range error, whichever comes
first from the left. -/
def parseUintLoop (maxVal : Nat) : List Char → Nat → Except NumErrKind Nat
  | [], n => .ok n
  | c :: cs, n =>
    if c.isDigit then
      if n ≥ (2 ^ 64 - 1) / 10 + 1 then .error .rangeErr
      else if n * 10 + (c.toNat - 48) > maxVal then .error .rangeErr
      else parseUintLoop maxVal cs (n * 10 + (c.toNat - 48))
    else .error .syntaxErr

/-- The call `strconv.ParseInt(s, 10, bitSize)` for `bitSize` 32 or 64: an
optional sign, then at least one decimal digit, the value within the signed
range of `bitSize` bits. -/
def ParseInt (s : String) (bitSize : Nat) : Except NumError Int :=
  match s.data with
  | [] => .error ⟨"ParseInt", s, .syntaxErr⟩
  | c :: rest =>
    let neg := c == '-'
    let digits := if c == '+' || c == '-' then rest else c :: rest
    match digits with
    | [] => .error ⟨"ParseInt", s, .syntaxErr⟩
    | _ =>
      match parseUintLoop (2 ^ bitSize - 1) digits 0 with
      | .error .syntaxErr => .error ⟨"ParseInt", s, .syntaxErr⟩
      | .error .rangeErr => .error ⟨"ParseInt", s, .rangeErr⟩
      | .ok un =>
        if !neg && un ≥ 2 ^ (bitSize - 1) then .error ⟨"ParseInt", s, .rangeErr⟩
        else if neg && un > 2 ^ (bitSize - 1) then .error ⟨"ParseInt", s, .rangeErr⟩
        else .ok (if neg then -(un : Int) else (un : Int))

/-- The function `strconv.Atoi` on a platform whose `int` has `intSize` bits: it
is `ParseInt(s, 10, 0)` with the error renamed (its fast path for short inputs
computes the same result). -/
def Atoi (intSize : Nat) (s : String) : Except NumError Int :=
  match ParseInt s intSize with
  | .ok v => .ok v
  | .error e => .error ⟨"Atoi", e.Num, e.Err⟩

/-- The function `strconv.Itoa`: the base-10 rendering, with a leading `-` for a
negative number. -/
def Itoa (n : Int) : String :=
  if n < 0 then "-" ++ Nat.repr n.natAbs else Nat.repr n.toNat

/-- The rune map of `strings.ToUpper` as far as ASCII can observe it: ASCII
letters are upper-cased, U+0131 and U+017F are the only other runes whose upper
case is an ASCII letter, and every other rune stays outside ASCII. -/
def toUpperRune (c : Char) : Char :=
  if 97 ≤ c.toNat ∧ c.toNat ≤ 122 then Char.ofNat (c.toNat - 32)
  else if c = Char.ofNat 0x131 then 'I'
  else if c = Char.ofNat 0x17F then 'S'
  else c

/-- The function `strings.ToUpper`. -/
def ToUpper (s : String) : String := String.mk (s.data.map toUpperRune)

/-- Splitting a list of characters at every occurrence of `sep`. -/
def splitChars (sep : Char) : List Char → List (List Char)
  | [] => [[]]
  | c :: cs =>
    if c = sep then [] :: splitChars sep cs
    else
      match splitChars sep cs with
      | [] => [[c]]
      | w :: ws => (c :: w) :: ws

/-- The call `strings.Split(s, ",")`. -/
def Split (s : String) : List String := (splitChars ',' s.data).map String.mk

/-- The library routines `defs.go` calls whose code is not needed in detail. -/
structure Host where
  /-- The constant `strconv.IntSize`: the width of `int`, 32 or 64. -/
  IntSize : Nat
  /-- The function `strcase.ToKebab`. -/
  ToKebab : String → String
  /-- The function `strcase.ToScreamingSnake`. -/
  ToScreamingSnake : String → String
  /-- The call `strconv.ParseFloat(s, 64)`: the IEEE-754 bits of the result, or the
  text of the error. -/
  ParseFloat : String → Except String Nat
  /-- The function `time.ParseDuration`: nanoseconds, or the text of the error. -/
  ParseDuration : String → Except String Int

/-! ## The data `defs.go` works on -/

/-- The dynamic value held by an `interface{}` made from a leaf field. The six
supported types are told apart by the type switch of `lookupEnv`; `other` is a
value of any other type, given by `Type.String()` and its `%v` rendering. -/
inductive Scalar where
  | int (n : Int)
  | int64 (n : Int)
  | float64 (bits : Nat)
  | bool (b : Bool)
  | string (s : String)
  | duration (ns : Int)
  | other (typ : String) (repr : String)
deriving DecidableEq, Repr

/-- The result of `Type.String()` for the type of a scalar. -/
def Scalar.typeString : Scalar → String
  | .int _ => "int"
  | .int64 _ => "int64"
  | .float64 _ => "float64"
  | .bool _ => "bool"
  | .string _ => "string"
  | .duration _ => "time.Duration"
  | .other typ _ => typ

/-- The six types `setDefault` can store. -/
def Scalar.supported : Scalar → Bool
  | .other _ _ => false
  | _ => true

/-- A `reflect.StructField` as far as `defs.go` reads it: the name, the results
of `Tag.Lookup("flag")` and `Tag.Lookup("env")`, and whether the field is
exported (`CanInterface` and `CanSet` both hold exactly for exported fields of a
struct reached through a pointer). -/
structure StructField where
  Name : String
  flagTag : Option String
  envTag : Option String
  exported : Bool
deriving DecidableEq, Repr

/-- The content of a struct field, by `reflect.Kind`: a leaf whose static type
is its dynamic type, a field of interface type with its dynamic value, a struct,
a nil pointer, a pointer to a struct, or a non-nil pointer to something else. -/
inductive Value where
  | scalar (s : Scalar)
  | iface (typ : String) (dyn : Option Scalar)
  | struct (fs : List (StructField × Value))
  | ptrNil
  | ptrStruct (fs : List (StructField × Value))
  | ptrOther

/-- A struct: its fields in declaration order. -/
abbrev Fields := List (StructField × Value)

/-- The result of `Type.String()` for the static type of a leaf field. -/
def Value.typeString : Value → String
  | .scalar s => s.typeString
  | .iface typ _ => typ
  | _ => ""

/-- The result of `fValue.Interface()` for a leaf field: `none` is the nil
interface. -/
def Value.interface : Value → Option Scalar
  | .scalar s => some s
  | .iface _ dyn => dyn
  | _ => none

/-- The cause wrapped by a conversion error of `lookupEnv`. -/
inductive Cause where
  | num (e : NumError)
  | text (msg : String)
deriving DecidableEq, Repr

/-- The errors `defs.go` builds with `fmt.Errorf`, one constructor per format
string. -/
inductive Error where
  /-- The text "argument is not a struct pointer". -/
  | notStructPointer
  /-- The format "%w, lookupEnv[%s]: %v\n" with the cause, the key and the raw value. -/
  | conversion (cause : Cause) (envNm : String) (res : String)
  /-- The format "lookupEnv[%s]: unsupported type %v" with the key and the value. -/
  | unsupportedValue (envNm : String) (t : String)
  /-- The format "environment %s is required". -/
  | required (envName : String)
  /-- The format "unsuported struct type %s". -/
  | unsupportedType (typ : String)
  /-- The format "%w; %s: field failure" with the inner error and the field name. -/
  | fieldFailure (inner : Error) (fieldName : String)
deriving DecidableEq, Repr

/-- How a call ends: with a nil error, with an error, or in a run-time panic. -/
inductive Outcome where
  | ok
  | err (e : Error)
  | panic (msg : String)
deriving DecidableEq, Repr

/-- The call returned a non-nil error. -/
def Outcome.isErr : Outcome → Bool
  | .err _ => true
  | _ => false

/-! ## `defs.go` -/

/-- The function `lookupEnv` (defs.go:26-70): the value of the variable `envNm`
converted to the dynamic type of `defaultVal`, or `defaultVal` itself when the
variable is not set. -/
def lookupEnv (H : Host) (env : Env) (envNm : String) (defaultVal : Option Scalar) :
    Except Error (Option Scalar) :=
  match env envNm with
  | none => .ok defaultVal
  | some res =>
    match defaultVal with
    | some (.int _) =>
      match Atoi H.IntSize res with
      | .error e => .error (.conversion (.num e) envNm res)
      | .ok v => .ok (some (.int v))
    | some (.int64 _) =>
      match ParseInt res 64 with
      | .error e => .error (.conversion (.num e) envNm res)
      | .ok v => .ok (some (.int64 v))
    | some (.float64 _) =>
      match H.ParseFloat res with
      | .error e => .error (.conversion (.text e) envNm res)
      | .ok v => .ok (some (.float64 v))
    | some (.bool _) =>
      let bstr := ToUpper res
      if bstr = "TRUE" || bstr = "1" then .ok (some (.bool true))
      else .ok (some (.bool false))
    | some (.string _) => .ok (some (.string res))
    | some (.duration _) =>
      match H.ParseDuration res with
      | .error e => .error (.conversion (.text e) envNm res)
      | .ok v => .ok (some (.duration v))
    | some (.other _ repr) => .error (.unsupportedValue envNm repr)
    | none => .error (.unsupportedValue envNm "<nil>")

/-- The local `flagName` of `setDefault` (defs.go:89-97) for a field whose flag
tag is not "-". -/
def flagNameOf (H : Host) (field : StructField) (pfx : String) : String :=
  if field.flagTag.getD "" ≠ "" then H.ToKebab pfx ++ field.flagTag.getD ""
  else H.ToKebab pfx ++ H.ToKebab field.Name

/-- The locals `envTag`, `envName` and `envRequired` of `setDefault` after
defs.go:121-141. -/
structure EnvOpts where
  envTag : String
  envName : String
  envRequired : Bool
deriving DecidableEq, Repr

/-- The env-tag section of `setDefault` (defs.go:121-141). The loop over `opts`
starts at index 0. -/
def envOptsOf (H : Host) (field : StructField) (flagName : String) : EnvOpts :=
  let envTag := field.envTag.getD ""
  let envName := if field.envTag.isSome then envTag else H.ToScreamingSnake flagName
  let opts := Split envTag
  if opts.length > 1 then
    ⟨opts.headD "", opts.headD "", opts.any (fun o => o == "required")⟩
  else ⟨envTag, envName, false⟩

/-- The leaf part of `setDefault` (defs.go:121-191) for a field that is neither
a pointer nor a struct: the new content of the field and the outcome. The test
`!fValue.CanAddr()` (defs.go:155) never holds, every field being reached through
a pointer to its struct. A type assertion that cannot hold panics. -/
def setLeaf (H : Host) (env : Env) (field : StructField) (fValue : Value)
    (flagName : String) : Value × Outcome :=
  let o := envOptsOf H field flagName
  let looked : Except Error (Option Scalar) :=
    if o.envTag ≠ "-" then lookupEnv H env o.envName fValue.interface
    else .ok fValue.interface
  match looked with
  | .error e => (fValue, .err e)
  | .ok defaultVal =>
    if o.envRequired && defaultVal.isNone then (fValue, .err (.required o.envName))
    else
      match fValue.typeString with
      | "int" =>
        match fValue, defaultVal with
        | .scalar (.int _), some (.int v) => (.scalar (.int v), .ok)
        | _, _ => (fValue, .panic "interface conversion")
      | "int64" =>
        match fValue, defaultVal with
        | .scalar (.int64 _), some (.int64 v) => (.scalar (.int64 v), .ok)
        | _, _ => (fValue, .panic "interface conversion")
      | "float64" =>
        match fValue, defaultVal with
        | .scalar (.float64 _), some (.float64 v) => (.scalar (.float64 v), .ok)
        | _, _ => (fValue, .panic "interface conversion")
      | "string" =>
        match fValue, defaultVal with
        | .scalar (.string _), some (.string v) =>
          if o.envRequired && v == "" then (.scalar (.string v), .err (.required o.envTag))
          else (.scalar (.string v), .ok)
        | _, _ => (fValue, .panic "interface conversion")
      | "bool" =>
        match fValue, defaultVal with
        | .scalar (.bool _), some (.bool v) => (.scalar (.bool v), .ok)
        | _, _ => (fValue, .panic "interface conversion")
      | "time.Duration" =>
        match fValue, defaultVal with
        | .scalar (.duration _), some (.duration v) => (.scalar (.duration v), .ok)
        | _, _ => (fValue, .panic "interface conversion")
      | t => (fValue, .err (.unsupportedType t))

/-- The prefix `fpfx` handed to the fields of a nested struct (defs.go:104-108). -/
def childPfx (H : Host) (field : StructField) (pfx : String) : String :=
  if field.flagTag = some "" then "" else flagNameOf H field pfx ++ "-"

/-- The outcome of `setDefault` on a nested struct (defs.go:115-118): an error
of the recursive call is wrapped with the name of the field. -/
def wrapOutcome (field : StructField) : Outcome → Outcome
  | .ok => .ok
  | .err e => .err (.fieldFailure e field.Name)
  | .panic m => .panic m

mutual
/-- The function `setDefault` (defs.go:85-192): the new content of the field and
the outcome. -/
def setDefault (H : Host) (env : Env) (field : StructField) :
    Value → String → Value × Outcome
  | .ptrNil, _ => (.ptrNil, .ok)
  | .ptrOther, _ => (.ptrOther, .ok)
  | .struct fs, pfx =>
    if field.flagTag.getD "" = "-" then (.struct fs, .ok)
    else
      let r := reflectStruct H env fs (childPfx H field pfx)
      (.struct r.1, wrapOutcome field r.2)
  | .ptrStruct fs, pfx =>
    if field.flagTag.getD "" = "-" then (.ptrStruct fs, .ok)
    else
      let r := reflectStruct H env fs (childPfx H field pfx)
      (.ptrStruct r.1, wrapOutcome field r.2)
  | .scalar s, pfx =>
    if field.flagTag.getD "" = "-" then (.scalar s, .ok)
    else setLeaf H env field (.scalar s) (flagNameOf H field pfx)
  | .iface typ dyn, pfx =>
    if field.flagTag.getD "" = "-" then (.iface typ dyn, .ok)
    else setLeaf H env field (.iface typ dyn) (flagNameOf H field pfx)
/-- The function `reflectStruct` (defs.go:194-212) on the fields of the struct
`v` points to: fields that are not exported are passed over, and the first
failure ends the loop. -/
def reflectStruct (H : Host) (env : Env) : Fields → String → Fields × Outcome
  | [], _ => ([], .ok)
  | (field, fValue) :: rest, pfx =>
    if !field.exported then
      let r := reflectStruct H env rest pfx
      ((field, fValue) :: r.1, r.2)
    else
      match setDefault H env field fValue pfx with
      | (fValue', .ok) =>
        let r := reflectStruct H env rest pfx
        ((field, fValue') :: r.1, r.2)
      | (fValue', out) => ((field, fValue') :: rest, out)
end

/-- The argument `defs interface{}` of `ReadDefaults`, by what `reflect.ValueOf`
finds: the nil interface, a value that is not a pointer, a nil pointer, a
pointer to a struct, or a non-nil pointer to something that is not a struct. -/
inductive Arg where
  | nilInterface
  | nonPointer (v : Value)
  | nilPointer
  | ptrStruct (fs : Fields)
  | ptrOther

/-- The function `readDefaults` (defs.go:72-83): the argument after the call and
the outcome. For a pointer to a non-struct, `reflectStruct` calls `NumField` on
a value that is not a struct, which panics. -/
def readDefaults (H : Host) (env : Env) : Arg → Arg × Outcome
  | .nilInterface => (.nilInterface, .err .notStructPointer)
  | .nonPointer v => (.nonPointer v, .err .notStructPointer)
  | .nilPointer => (.nilPointer, .err .notStructPointer)
  | .ptrStruct fs =>
    let r := reflectStruct H env fs ""
    (.ptrStruct r.1, r.2)
  | .ptrOther => (.ptrOther, .panic "reflect: call of reflect.Value.NumField on non-struct Value")

/-- The function `ReadDefaults` (defs.go:20-22). -/
def ReadDefaults (H : Host) (env : Env) (defs : Arg) : Arg × Outcome :=
  readDefaults H env defs

/-! ## A concrete host, for evaluation -/

/-- The predicate `unicode.IsSpace`, which `strings.TrimSpace` trims by. -/
def isSpaceRune (c : Char) : Bool :=
  let n := c.toNat
  (9 ≤ n && n ≤ 13) || n == 0x20 || n == 0x85 || n == 0xA0 || n == 0x1680 ||
    (0x2000 ≤ n && n ≤ 0x200A) || n == 0x2028 || n == 0x2029 || n == 0x202F ||
    n == 0x205F || n == 0x3000

/-- The function `strings.TrimSpace` on a list of characters. -/
def trimSpaceChars (cs : List Char) : List Char :=
  ((cs.dropWhile isSpaceRune).reverse.dropWhile isSpaceRune).reverse

/-- The loop of `strcase.ToScreamingDelimited` (package
github.com/iancoleman/strcase, version 0.3.0, imported by defs.go) with an empty
ignore set: a delimiter is put where the letter case or the letter/digit class
changes, an acronym counts as one word, and space, underscore, hyphen and dot
become the delimiter. `prev` is the byte before the current one; bytes outside
ASCII pass unchanged, so the loop over characters writes what the loop over
bytes writes. -/
def delimitedLoop (delimiter : Char) (screaming : Bool) : Option Char → List Char → List Char
  | _, [] => []
  | prev, v0 :: rest =>
    let vIsCap := v0.isUpper
    let vIsLow := v0.isLower
    let v := if vIsLow && screaming then Char.ofNat (v0.toNat - 32)
      else if vIsCap && !screaming then Char.ofNat (v0.toNat + 32)
      else v0
    let tail := delimitedLoop delimiter screaming (some v0) rest
    let plain := (if v == ' ' || v == '_' || v == '-' || v == '.' then delimiter else v) :: tail
    match rest with
    | [] => plain
    | next :: _ =>
      let vIsNum := v.isDigit
      let nextIsCap := next.isUpper
      let nextIsLow := next.isLower
      let nextIsNum := next.isDigit
      if (vIsCap && (nextIsLow || nextIsNum)) || (vIsLow && (nextIsCap || nextIsNum)) ||
          (vIsNum && (nextIsCap || nextIsLow)) then
        let prevIsCap := match prev with
          | some p => p.isUpper
          | none => false
        (if vIsCap && nextIsLow && prevIsCap then [delimiter] else []) ++
          (v :: ((if vIsLow || vIsNum || nextIsNum then [delimiter] else []) ++ tail))
      else plain

/-- The call `strcase.ToScreamingDelimited(s, delimiter, "", screaming)`. -/
def ToScreamingDelimited (s : String) (delimiter : Char) (screaming : Bool) : String :=
  String.mk (delimitedLoop delimiter screaming none (trimSpaceChars s.data))

/-- The function `strcase.ToKebab`, the hyphenation of the spec. -/
def ToKebab (s : String) : String := ToScreamingDelimited s '-' false

/-- The function `strcase.ToScreamingSnake`, the upper-snake-case of the spec. -/
def ToScreamingSnake (s : String) : String := ToScreamingDelimited s '_' true

/-- A 64-bit host with the `strcase` model above. Its float and duration parsers
know only the literals listed and reject every other input; they stand for
`strconv.ParseFloat` and `time.ParseDuration` on those literals only. -/
def host64 : Host where
  IntSize := 64
  ToKebab := ToKebab
  ToScreamingSnake := ToScreamingSnake
  ParseFloat := fun s =>
    if s = "0" then .ok 0
    else if s = "1" then .ok 0x3FF0000000000000
    else if s = "1.5" then .ok 0x3FF8000000000000
    else .error "strconv.ParseFloat: invalid syntax"
  ParseDuration := fun s =>
    if s = "0" then .ok 0
    else if s = "5s" then .ok 5000000000
    else if s = "2h30m" then .ok 9000000000000
    else .error "time: invalid duration"

/-- The environment in which no variable is set. -/
def emptyEnv : Env := fun _ => none

/-- The environment `env` after `os.Setenv(key, value)`. -/
def setenv (env : Env) (key value : String) : Env :=
  fun k => if k = key then some value else env k

/-- A field descriptor of an exported field without tags. -/
def plainField (name : String) : StructField := ⟨name, none, none, true⟩

/-- A field descriptor of an exported field with an env tag only. -/
def envField (name tag : String) : StructField := ⟨name, none, some tag, true⟩

/-- The struct `testData` of defs_test.go with the given field values. -/
def testData (f1 home : String) (uid : Int) (user : String) : Fields :=
  [(envField "F1" "F1", .scalar (.string f1)),
   (envField "Home" "HOME", .scalar (.string home)),
   (envField "UID" "UID", .scalar (.int uid)),
   (envField "User" "USER", .scalar (.string user))]

/-- The struct an argument points to, when it points to one. -/
def Arg.fields : Arg → Option Fields
  | .ptrStruct fs => some fs
  | _ => none

/-- The field found by following a path of field indices down through nested
structs and pointers to structs, with the prefix `setDefault` receives there. -/
def fieldAt (H : Host) : Fields → String → List Nat → Option (StructField × Value × String)
  | _, _, [] => none
  | fs, pfx, [i] => (fs[i]?).map (fun x => (x.1, x.2, pfx))
  | fs, pfx, i :: j :: path =>
    match fs[i]? with
    | some (field, .struct gs) => fieldAt H gs (childPfx H field pfx) (j :: path)
    | some (field, .ptrStruct gs) => fieldAt H gs (childPfx H field pfx) (j :: path)
    | _ => none

/-- The descriptors of the nested struct fields a path goes through, outermost
first. -/
def ancestorsAt : Fields → List Nat → List StructField
  | _, [] => []
  | _, [_] => []
  | fs, i :: j :: path =>
    match fs[i]? with
    | some (field, .struct gs) => field :: ancestorsAt gs (j :: path)
    | some (field, .ptrStruct gs) => field :: ancestorsAt gs (j :: path)
    | _ => []

/-- The prefix the walk carries below nested struct fields with the given names
and no flag tag, starting from `start`: each level hyphenates the prefix it
received and appends the hyphenated field name and a hyphen (defs.go:89, 104). -/
def walkPfx (H : Host) (start : String) (names : List String) : String :=
  names.foldl (fun p n => H.ToKebab p ++ H.ToKebab n ++ "-") start

/-- The hyphenated names, each followed by a hyphen. -/
def joinPfx (H : Host) (names : List String) : String :=
  names.foldl (fun p n => p ++ H.ToKebab n ++ "-") ""

/-- The struct `struct { Server struct { MaxRetries int } }` with the given
value of `MaxRetries`. -/
def serverConfig (maxRetries : Int) : Fields :=
  [(plainField "Server", .struct [(plainField "MaxRetries", .scalar (.int maxRetries))])]

/-- A leaf: a field whose kind is neither pointer nor struct. -/
def Value.isLeaf : Value → Bool
  | .scalar _ => true
  | .iface _ _ => true
  | _ => false

/-- The results of `Type.String()` for the six types `setDefault` can store. -/
def supportedTypeNames : List String :=
  ["int", "int64", "float64", "string", "bool", "time.Duration"]

/-- The number written by a string of decimal digits. -/
def digitsValue (n : Nat) (ds : List Char) : Nat :=
  ds.foldl (fun m c => m * 10 + (c.toNat - 48)) n

/-- A base-10 integer literal in the words of the spec, an optional sign followed
by one or more decimal digits: its value, or `none` when `s` is not one. -/
def decimalLiteral (s : String) : Option Int :=
  match s.data with
  | [] => none
  | c :: rest =>
    let digits := if c = '+' ∨ c = '-' then rest else c :: rest
    if digits ≠ [] ∧ digits.all Char.isDigit = true then
      some (if c = '-' then -(digitsValue 0 digits : Int) else (digitsValue 0 digits : Int))
    else none

/-- The value of `s` when it is a base-10 integer literal that fits a signed
integer of `bits` bits. -/
def intLiteral (bits : Nat) (s : String) : Option Int :=
  (decimalLiteral s).filter
    (fun v => decide (-(2 : Int) ^ (bits - 1) ≤ v ∧ v < (2 : Int) ^ (bits - 1)))

/-- The struct `struct { Outer struct { Inner struct { Leaf int } } `flag:""` }`
with the given value of `Leaf`. -/
def outerInnerLeaf (leaf : Int) : Fields :=
  [(⟨"Outer", some "", none, true⟩,
    .struct [(plainField "Inner", .struct [(plainField "Leaf", .scalar (.int leaf))])])]

/-- The struct `struct { App struct { Db struct { Host string } `flag:""` } }`
with the given value of `Host`. -/
def appDbHost (host : String) : Fields :=
  [(plainField "App",
    .struct [(⟨"Db", some "", none, true⟩,
      .struct [(plainField "Host", .scalar (.string host))])])]

/-- The text of the two sentinel errors of package `strconv`. -/
def NumErrKind.message : NumErrKind → String
  | .syntaxErr => "invalid syntax"
  | .rangeErr => "value out of range"

/-- The text of the cause of a conversion error; `quote` is `strconv.Quote`,
which `NumError.Error` applies to the input. -/
def Cause.message (quote : String → String) : Cause → String
  | .num e => "strconv." ++ e.Func ++ ": parsing " ++ quote e.Num ++ ": " ++ e.Err.message
  | .text msg => msg

/-- The text of an error, as `fmt.Errorf` builds it from the format strings of
defs.go. -/
def Error.message (quote : String → String) : Error → String
  | .notStructPointer => "argument is not a struct pointer"
  | .conversion cause envNm res =>
    cause.message quote ++ ", lookupEnv[" ++ envNm ++ "]: " ++ res ++ "\n"
  | .unsupportedValue envNm t => "lookupEnv[" ++ envNm ++ "]: unsupported type " ++ t
  | .required envName => "environment " ++ envName ++ " is required"
  | .unsupportedType typ => "unsuported struct type " ++ typ
  | .fieldFailure inner fieldName =>
    inner.message quote ++ "; " ++ fieldName ++ ": field failure"

/-- The error `e` wrapped by the nested struct fields with the given names,
outermost first: the innermost wraps first (defs.go:115-117). -/
def wrapErrors (e : Error) : List String → Error
  | [] => e
  | name :: names => .fieldFailure (wrapErrors e names) name

/-- The trail the wrapping fields add to the text of an error, for the names of
the enclosing fields outermost first: the innermost name comes first. -/
def failureTrail : List String → String
  | [] => ""
  | name :: names => failureTrail names ++ "; " ++ name ++ ": field failure"

/-- Depth-first declaration order on paths: `q` comes after `p` when, at the
first index where they part, `q` has the larger one. -/
def pathAfter : List Nat → List Nat → Bool
  | i :: p, j :: q => decide (i < j) || (i == j && pathAfter p q)
  | _, _ => false

/-- The struct `struct { Need string `env:"NEED_IT,required"` }` of `TestOne`. -/
def needStruct (need : String) : Fields :=
  [(envField "Need" "NEED_IT,required", .scalar (.string need))]

/-- The function `strconv.Quote` on a string of printable ASCII characters that
holds neither a double quote nor a backslash: the string between double
quotes. -/
def quotePlain (s : String) : String := "\"" ++ s ++ "\""

/-- The struct `struct { A int; B string }` with the given values. -/
def pairAB (a : Int) (b : String) : Fields :=
  [(plainField "A", .scalar (.int a)), (plainField "B", .scalar (.string b))]

/-! ## The walk over a list of fields -/

/-- An unexported field is passed over. -/
theorem reflectStruct_cons_unexported (H : Host) (env : Env) (field : StructField)
    (fValue : Value) (rest : Fields) (pfx : String) (hx : field.exported = false) :
    reflectStruct H env ((field, fValue) :: rest) pfx =
      ((field, fValue) :: (reflectStruct H env rest pfx).1, (reflectStruct H env rest pfx).2) := by
  simp [reflectStruct, hx]

/-- An exported field that `setDefault` accepts is followed by the rest of the loop. -/
theorem reflectStruct_cons_ok (H : Host) (env : Env) (field : StructField)
    (fValue fValue' : Value) (rest : Fields) (pfx : String) (hx : field.exported = true)
    (hs : setDefault H env field fValue pfx = (fValue', .ok)) :
    reflectStruct H env ((field, fValue) :: rest) pfx =
      ((field, fValue') :: (reflectStruct H env rest pfx).1, (reflectStruct H env rest pfx).2) := by
  simp [reflectStruct, hx, hs]

/-- An exported field on which `setDefault` does not return nil ends the loop. -/
theorem reflectStruct_cons_fail (H : Host) (env : Env) (field : StructField)
    (fValue : Value) (rest : Fields) (pfx : String) (hx : field.exported = true)
    (hs : (setDefault H env field fValue pfx).2 ≠ .ok) :
    reflectStruct H env ((field, fValue) :: rest) pfx =
      ((field, (setDefault H env field fValue pfx).1) :: rest,
        (setDefault H env field fValue pfx).2) := by
  rw [reflectStruct]
  simp only [hx, Bool.not_true, Bool.false_eq_true, if_false]

/-- The loop over `pre ++ post`: when the loop over `pre` succeeds it goes on
with `post`, otherwise `post` is not touched. -/
theorem reflectStruct_append (H : Host) (env : Env) (pre post : Fields) (pfx : String) :
    reflectStruct H env (pre ++ post) pfx =
      if (reflectStruct H env pre pfx).2 = .ok then
        ((reflectStruct H env pre pfx).1 ++ (reflectStruct H env post pfx).1,
          (reflectStruct H env post pfx).2)
      else ((reflectStruct H env pre pfx).1 ++ post, (reflectStruct H env pre pfx).2) := by
  induction pre with
  | nil => simp [reflectStruct]
  | cons x pre ih =>
    obtain ⟨field, fValue⟩ := x
    cases hx : field.exported with
    | false =>
      rw [List.cons_append, reflectStruct_cons_unexported H env field fValue _ pfx hx,
        reflectStruct_cons_unexported H env field fValue _ pfx hx, ih]
      split <;> simp
    | true =>
      by_cases hs : (setDefault H env field fValue pfx).2 = .ok
      · have hs' : setDefault H env field fValue pfx =
            ((setDefault H env field fValue pfx).1, .ok) := by rw [← hs]
        rw [List.cons_append, reflectStruct_cons_ok H env field fValue _ _ pfx hx hs',
          reflectStruct_cons_ok H env field fValue _ _ pfx hx hs', ih]
        split <;> simp
      · rw [List.cons_append, reflectStruct_cons_fail H env field fValue _ pfx hx hs,
          reflectStruct_cons_fail H env field fValue _ pfx hx hs]
        simp [hs]

/-- The content `setDefault` leaves in a nested struct is the struct itself or
the result of the walk over its fields. -/
theorem setDefault_struct (H : Host) (env : Env) (field : StructField) (gs : Fields)
    (pfx : String) :
    (setDefault H env field (.struct gs) pfx).1 = .struct gs ∨
      (setDefault H env field (.struct gs) pfx).1 =
        .struct (reflectStruct H env gs (childPfx H field pfx)).1 := by
  rw [setDefault]
  split
  · exact Or.inl rfl
  · exact Or.inr rfl

/-- The same for a pointer to a struct. -/
theorem setDefault_ptrStruct (H : Host) (env : Env) (field : StructField) (gs : Fields)
    (pfx : String) :
    (setDefault H env field (.ptrStruct gs) pfx).1 = .ptrStruct gs ∨
      (setDefault H env field (.ptrStruct gs) pfx).1 =
        .ptrStruct (reflectStruct H env gs (childPfx H field pfx)).1 := by
  rw [setDefault]
  split
  · exact Or.inl rfl
  · exact Or.inr rfl

/-- After the walk every field keeps its descriptor, and its content is either
what it was or what `setDefault` made of it. -/
theorem reflectStruct_getElem? (H : Host) (env : Env) (pfx : String) :
    ∀ (fs : Fields) (i : Nat) (field : StructField) (fValue : Value),
      fs[i]? = some (field, fValue) →
      (reflectStruct H env fs pfx).1[i]? = some (field, fValue) ∨
        (reflectStruct H env fs pfx).1[i]? =
          some (field, (setDefault H env field fValue pfx).1) := by
  intro fs
  induction fs with
  | nil => intro i field fValue h; simp at h
  | cons x rest ih =>
    obtain ⟨g, w⟩ := x
    intro i field fValue h
    have hshape : ∃ w' rest', (reflectStruct H env ((g, w) :: rest) pfx).1 = (g, w') :: rest' ∧
        (w' = w ∨ w' = (setDefault H env g w pfx).1) ∧
        (rest' = rest ∨ rest' = (reflectStruct H env rest pfx).1) := by
      cases hx : g.exported with
      | false =>
        exact ⟨w, _, by rw [reflectStruct_cons_unexported H env g w rest pfx hx],
          Or.inl rfl, Or.inr rfl⟩
      | true =>
        by_cases hs : (setDefault H env g w pfx).2 = .ok
        · have hs' : setDefault H env g w pfx = ((setDefault H env g w pfx).1, .ok) := by
            rw [← hs]
          exact ⟨_, _, by rw [reflectStruct_cons_ok H env g w _ rest pfx hx hs'],
            Or.inr rfl, Or.inr rfl⟩
        · exact ⟨_, _, by rw [reflectStruct_cons_fail H env g w rest pfx hx hs],
            Or.inr rfl, Or.inl rfl⟩
    obtain ⟨w', rest', heq, hw, hrest⟩ := hshape
    rw [heq]
    cases i with
    | zero =>
      simp only [List.getElem?_cons_zero, Option.some.injEq, Prod.mk.injEq] at h ⊢
      obtain ⟨rfl, rfl⟩ := h
      rcases hw with rfl | rfl
      · exact Or.inl ⟨rfl, rfl⟩
      · exact Or.inr ⟨rfl, rfl⟩
    | succ i =>
      simp only [List.getElem?_cons_succ] at h ⊢
      rcases hrest with rfl | rfl
      · exact Or.inl h
      · exact ih i field fValue h

/-- The same along a path into nested structs: the field at the end of the path
keeps its descriptor and its prefix, and its content is either what it was or
what `setDefault` made of it. -/
theorem fieldAt_reflectStruct (H : Host) (env : Env) :
    ∀ (path : List Nat) (fs : Fields) (pfx : String) (field : StructField) (fValue : Value)
      (q : String), fieldAt H fs pfx path = some (field, fValue, q) →
      fieldAt H (reflectStruct H env fs pfx).1 pfx path = some (field, fValue, q) ∨
        fieldAt H (reflectStruct H env fs pfx).1 pfx path =
          some (field, (setDefault H env field fValue q).1, q) := by
  intro path
  induction path with
  | nil => intro fs pfx field fValue q h; simp [fieldAt] at h
  | cons i path ih =>
    intro fs pfx field fValue q h
    cases path with
    | nil =>
      simp only [fieldAt, Option.map_eq_some'] at h
      obtain ⟨⟨g, w⟩, hg, hgw⟩ := h
      simp only [Prod.mk.injEq] at hgw
      obtain ⟨rfl, rfl, rfl⟩ := hgw
      rcases reflectStruct_getElem? H env pfx fs i g w hg with h1 | h1
      · left; simp [fieldAt, h1]
      · right; simp [fieldAt, h1]
    | cons j path =>
      rw [fieldAt] at h
      split at h
      · next g gs hg =>
        rcases reflectStruct_getElem? H env pfx fs i g (.struct gs) hg with h1 | h1
        · left; rw [fieldAt, h1]; exact h
        · rcases setDefault_struct H env g gs pfx with h2 | h2
          · left; rw [fieldAt, h1, h2]; exact h
          · rw [fieldAt, h1, h2]; exact ih gs _ field fValue q h
      · next g gs hg =>
        rcases reflectStruct_getElem? H env pfx fs i g (.ptrStruct gs) hg with h1 | h1
        · left; rw [fieldAt, h1]; exact h
        · rcases setDefault_ptrStruct H env g gs pfx with h2 | h2
          · left; rw [fieldAt, h1, h2]; exact h
          · rw [fieldAt, h1, h2]; exact ih gs _ field fValue q h
      · exact absurd h (by simp)


/-! ## Leaves -/

/-- When the lookup gives back the content of the field, `setLeaf` stores what
is already there. -/
theorem setLeaf_fst_of_kept (H : Host) (env : Env) (field : StructField) (s : Scalar)
    (flagName : String)
    (h : (envOptsOf H field flagName).envTag = "-" ∨
      env (envOptsOf H field flagName).envName = none) :
    (setLeaf H env field (.scalar s) flagName).1 = .scalar s := by
  have hlooked : (if (envOptsOf H field flagName).envTag ≠ "-" then
      lookupEnv H env (envOptsOf H field flagName).envName (Value.scalar s).interface
      else .ok (Value.scalar s).interface) = .ok (some s) := by
    rcases h with h | h
    · simp [h, Value.interface]
    · split
      · simp [lookupEnv, h, Value.interface]
      · simp [Value.interface]
  unfold setLeaf
  simp only [hlooked]
  cases s <;> simp [Value.typeString, Scalar.typeString]
  all_goals (split <;> rfl)

/-- A leaf whose variable is not consulted or not set keeps its content, whatever
the outcome. -/
theorem setDefault_scalar_fst_of_kept (H : Host) (env : Env) (field : StructField)
    (s : Scalar) (pfx : String)
    (h : (envOptsOf H field (flagNameOf H field pfx)).envTag = "-" ∨
      env (envOptsOf H field (flagNameOf H field pfx)).envName = none) :
    (setDefault H env field (.scalar s) pfx).1 = .scalar s := by
  rw [setDefault]
  split
  · rfl
  · exact setLeaf_fst_of_kept H env field s _ h

/-! ## Absent variables -/

/-- C1: a leaf field of any of the six supported scalar types (indeed of any
leaf type) whose environment key is not set in the environment holds after
`ReadDefaults` the value it held before, wherever it sits in the struct. -/
theorem absent_key_keeps_default (H : Host) (env : Env) (fs : Fields) (path : List Nat)
    (field : StructField) (s : Scalar) (q : String)
    (hfield : fieldAt H fs "" path = some (field, .scalar s, q))
    (habsent : env (envOptsOf H field (flagNameOf H field q)).envName = none) :
    ∃ fs', (ReadDefaults H env (.ptrStruct fs)).1 = .ptrStruct fs' ∧
      fieldAt H fs' "" path = some (field, .scalar s, q) := by
  refine ⟨(reflectStruct H env fs "").1, rfl, ?_⟩
  rcases fieldAt_reflectStruct H env path fs "" field (.scalar s) q hfield with h | h
  · exact h
  · rw [h, setDefault_scalar_fst_of_kept H env field s q (Or.inr habsent)]

/-- The first scenario of `TestOne`: with no variable set, `UID` stays 0. -/
theorem absent_key_keeps_default_witness :
    fieldAt host64 (testData "field1" "" 0 "") "" [2] =
        some (envField "UID" "UID", .scalar (.int 0), "") ∧
      emptyEnv (envOptsOf host64 (envField "UID" "UID")
        (flagNameOf host64 (envField "UID" "UID") "")).envName = none ∧
      ∃ fs', (ReadDefaults host64 emptyEnv (.ptrStruct (testData "field1" "" 0 ""))).1 =
          .ptrStruct fs' ∧
        fieldAt host64 fs' "" [2] = some (envField "UID" "UID", .scalar (.int 0), "") :=
  ⟨rfl, rfl, absent_key_keeps_default host64 emptyEnv (testData "field1" "" 0 "") [2]
    (envField "UID" "UID") (.int 0) "" rfl rfl⟩

/-! ## Decimal integers -/

/-- A decimal digit is rendered by the character the parser reads back. -/
theorem digitChar_spec (d : Nat) (h : d < 10) :
    (Nat.digitChar d).isDigit = true ∧ (Nat.digitChar d).toNat - 48 = d := by
  interval_cases d <;> decide

/-- The digits `Nat.toDigitsCore` puts in front of `ds` are read back as `n`. -/
theorem parseUintLoop_toDigitsCore (maxVal : Nat) (hmax : maxVal < 2 ^ 64) :
    ∀ (fuel n : Nat) (ds : List Char), n < fuel → n ≤ maxVal →
      parseUintLoop maxVal (Nat.toDigitsCore 10 fuel n ds) 0 = parseUintLoop maxVal ds n := by
  intro fuel
  induction fuel with
  | zero => intro n ds h; omega
  | succ fuel ih =>
    intro n ds hn hle
    obtain ⟨hd, hv⟩ := digitChar_spec (n % 10) (Nat.mod_lt _ (by decide))
    have hstep : ∀ m, m * 10 + n % 10 = n →
        parseUintLoop maxVal (Nat.digitChar (n % 10) :: ds) m = parseUintLoop maxVal ds n := by
      intro m hm
      have h1 : ¬ (m ≥ (2 ^ 64 - 1) / 10 + 1) := by omega
      have h2 : ¬ (m * 10 + ((Nat.digitChar (n % 10)).toNat - 48) > maxVal) := by
        rw [hv, hm]; omega
      rw [parseUintLoop, if_pos hd, if_neg h1, if_neg h2, hv, hm]
    rw [Nat.toDigitsCore]
    by_cases h0 : n / 10 = 0
    · simp only [h0, if_true]
      exact hstep 0 (by omega)
    · simp only [h0, if_false]
      rw [ih (n / 10) _ (by omega) (by omega)]
      exact hstep (n / 10) (by omega)

/-- The rendering by `Nat.toDigitsCore` is never empty when there is fuel. -/
theorem toDigitsCore_ne_nil (fuel n : Nat) (ds : List Char) (h : fuel ≠ 0 ∨ ds ≠ []) :
    Nat.toDigitsCore 10 fuel n ds ≠ [] := by
  induction fuel generalizing n ds with
  | zero =>
    rcases h with h | h
    · exact absurd rfl h
    · simpa [Nat.toDigitsCore] using h
  | succ fuel ih =>
    rw [Nat.toDigitsCore]
    by_cases h0 : n / 10 = 0
    · simp [h0]
    · simp only [h0, if_false]
      exact ih _ _ (Or.inr (by simp))

/-- The decimal rendering of `m` starts with a digit and is read back as `m`. -/
theorem parseUintLoop_repr (maxVal m : Nat) (hmax : maxVal < 2 ^ 64) (hm : m ≤ maxVal) :
    ∃ c cs, (Nat.repr m).data = c :: cs ∧ c.isDigit = true ∧
      parseUintLoop maxVal (c :: cs) 0 = .ok m := by
  have hdata : (Nat.repr m).data = Nat.toDigitsCore 10 (m + 1) m [] := rfl
  have hparse := parseUintLoop_toDigitsCore maxVal hmax (m + 1) m [] (by omega) hm
  rw [parseUintLoop] at hparse
  cases hl : Nat.toDigitsCore 10 (m + 1) m [] with
  | nil => exact absurd hl (toDigitsCore_ne_nil _ _ _ (Or.inl (by omega)))
  | cons c cs =>
    rw [hl] at hparse
    refine ⟨c, cs, by rw [hdata, hl], ?_, hparse⟩
    by_contra hc
    rw [parseUintLoop, if_neg hc] at hparse
    exact absurd hparse (by simp)

/-- Round trip: `ParseInt` reads the rendering of `n` by `Itoa` back as `n`, for
`n` in the signed range of `bitSize` bits. -/
theorem ParseInt_Itoa (bitSize : Nat) (n : Int) (h1 : 1 ≤ bitSize) (h64 : bitSize ≤ 64)
    (hlo : -(2 : Int) ^ (bitSize - 1) ≤ n) (hhi : n < (2 : Int) ^ (bitSize - 1)) :
    ParseInt (Itoa n) bitSize = .ok n := by
  have hpow : (2 : Nat) ^ (bitSize - 1) ≤ 2 ^ bitSize - 1 := by
    have : (2 : Nat) ^ bitSize = 2 ^ (bitSize - 1) * 2 := by
      rw [← pow_succ]; congr 1; omega
    have hpos : 0 < (2 : Nat) ^ (bitSize - 1) := Nat.pow_pos (by decide)
    omega
  have hmax : 2 ^ bitSize - 1 < 2 ^ 64 := by
    have : (2 : Nat) ^ bitSize ≤ 2 ^ 64 := Nat.pow_le_pow_right (by decide) h64
    have hpos : 0 < (2 : Nat) ^ bitSize := Nat.pow_pos (by decide)
    omega
  have hcast : ((2 : Nat) ^ (bitSize - 1) : Int) = (2 : Int) ^ (bitSize - 1) := by
    push_cast; rfl
  by_cases hneg : n < 0
  · have hm : n.natAbs ≤ 2 ^ (bitSize - 1) := by omega
    obtain ⟨c, cs, hdata, hdig, hparse⟩ :=
      parseUintLoop_repr (2 ^ bitSize - 1) n.natAbs hmax (le_trans hm hpow)
    have hs : (Itoa n).data = '-' :: c :: cs := by
      simp only [Itoa, hneg, if_true, String.data_append, hdata]
      rfl
    have hnot : ¬ (n.natAbs > 2 ^ (bitSize - 1)) := by omega
    unfold ParseInt
    rw [hs]
    simp [hparse, hnot]
    rw [abs_of_neg hneg]
    omega
  · have hm : n.toNat < 2 ^ (bitSize - 1) := by omega
    obtain ⟨c, cs, hdata, hdig, hparse⟩ :=
      parseUintLoop_repr (2 ^ bitSize - 1) n.toNat hmax (by omega)
    have hs : (Itoa n).data = c :: cs := by
      simp only [Itoa, hneg, if_false, hdata]
    have hplus : (c == '+') = false := by
      cases hc : (c == '+') with
      | false => rfl
      | true => rw [beq_iff_eq] at hc; subst hc; exact absurd hdig (by decide)
    have hminus : (c == '-') = false := by
      cases hc : (c == '-') with
      | false => rfl
      | true => rw [beq_iff_eq] at hc; subst hc; exact absurd hdig (by decide)
    have hnot : ¬ (n.toNat ≥ 2 ^ (bitSize - 1)) := by omega
    unfold ParseInt
    rw [hs]
    simp [hplus, hminus, hparse, hnot]
    omega

/-- Round trip for `Atoi` on a 32-bit or 64-bit platform. -/
theorem Atoi_Itoa (intSize : Nat) (n : Int) (hsize : intSize = 32 ∨ intSize = 64)
    (hlo : -(2 : Int) ^ (intSize - 1) ≤ n) (hhi : n < (2 : Int) ^ (intSize - 1)) :
    Atoi intSize (Itoa n) = .ok n := by
  have h := ParseInt_Itoa intSize n (by omega) (by omega) hlo hhi
  simp [Atoi, h]

/-- An `int` field whose variable holds the rendering of `n` is set to `n`,
under any prefix. -/
theorem setDefault_int_present (H : Host) (env : Env) (field : StructField) (pfx : String)
    (old n : Int) (hflag : field.flagTag.getD "" ≠ "-")
    (htag : (envOptsOf H field (flagNameOf H field pfx)).envTag ≠ "-")
    (hkey : env (envOptsOf H field (flagNameOf H field pfx)).envName = some (Itoa n))
    (hparse : Atoi H.IntSize (Itoa n) = .ok n) :
    setDefault H env field (.scalar (.int old)) pfx = (.scalar (.int n), .ok) := by
  rw [setDefault, if_neg hflag]
  unfold setLeaf
  simp [htag, lookupEnv, hkey, Value.interface, hparse, Value.typeString, Scalar.typeString]

/-- An `int64` field whose variable holds the rendering of `n` is set to `n`,
under any prefix. -/
theorem setDefault_int64_present (H : Host) (env : Env) (field : StructField) (pfx : String)
    (old n : Int) (hflag : field.flagTag.getD "" ≠ "-")
    (htag : (envOptsOf H field (flagNameOf H field pfx)).envTag ≠ "-")
    (hkey : env (envOptsOf H field (flagNameOf H field pfx)).envName = some (Itoa n))
    (hparse : ParseInt (Itoa n) 64 = .ok n) :
    setDefault H env field (.scalar (.int64 old)) pfx = (.scalar (.int64 n), .ok) := by
  rw [setDefault, if_neg hflag]
  unfold setLeaf
  simp [htag, lookupEnv, hkey, Value.interface, hparse, Value.typeString, Scalar.typeString]

/-- A top-level field that `setDefault` accepts, between fields the walk
accepts: `ReadDefaults` succeeds and stores the new content. -/
theorem ReadDefaults_of_field_ok (H : Host) (env : Env) (field : StructField)
    (fValue fValue' : Value) (pre post : Fields) (hx : field.exported = true)
    (hs : setDefault H env field fValue "" = (fValue', .ok))
    (hpre : (reflectStruct H env pre "").2 = .ok) :
    ReadDefaults H env (.ptrStruct (pre ++ (field, fValue) :: post)) =
      (.ptrStruct ((reflectStruct H env pre "").1 ++
        (field, fValue') :: (reflectStruct H env post "").1), (reflectStruct H env post "").2) := by
  simp only [ReadDefaults, readDefaults]
  rw [reflectStruct_append, if_pos hpre, reflectStruct_cons_ok H env field fValue fValue' post "" hx hs]

/-! ## Present variables -/

/-- C2: round trip for integers. When the environment maps the key of an `int`
field, or of an `int64` field, to `strconv.Itoa(n)` for an `int` value `n`, and
the other fields of the struct are accepted, `ReadDefaults` succeeds and the field
holds `n` afterwards, whatever it held before. -/
theorem int_round_trip (H : Host) (env : Env) (field : StructField) (pre post : Fields)
    (old n : Int) (hsize : H.IntSize = 32 ∨ H.IntSize = 64)
    (hlo : -(2 : Int) ^ (H.IntSize - 1) ≤ n) (hhi : n < (2 : Int) ^ (H.IntSize - 1))
    (hx : field.exported = true) (hflag : field.flagTag.getD "" ≠ "-")
    (htag : (envOptsOf H field (flagNameOf H field "")).envTag ≠ "-")
    (hkey : env (envOptsOf H field (flagNameOf H field "")).envName = some (Itoa n))
    (hpre : (reflectStruct H env pre "").2 = .ok)
    (hpost : (reflectStruct H env post "").2 = .ok) :
    ReadDefaults H env (.ptrStruct (pre ++ (field, .scalar (.int old)) :: post)) =
        (.ptrStruct ((reflectStruct H env pre "").1 ++
          (field, .scalar (.int n)) :: (reflectStruct H env post "").1), .ok) ∧
      ReadDefaults H env (.ptrStruct (pre ++ (field, .scalar (.int64 old)) :: post)) =
        (.ptrStruct ((reflectStruct H env pre "").1 ++
          (field, .scalar (.int64 n)) :: (reflectStruct H env post "").1), .ok) := by
  have h64 : ParseInt (Itoa n) 64 = .ok n := by
    have hmono : (2 : Int) ^ (H.IntSize - 1) ≤ (2 : Int) ^ (64 - 1) :=
      pow_le_pow_right₀ (by decide) (by omega)
    exact ParseInt_Itoa 64 n (by decide) (by decide) (by omega) (by omega)
  constructor
  · rw [ReadDefaults_of_field_ok H env field _ _ pre post hx
      (setDefault_int_present H env field "" old n hflag htag hkey
        (Atoi_Itoa H.IntSize n hsize hlo hhi)) hpre, hpost]
  · rw [ReadDefaults_of_field_ok H env field _ _ pre post hx
      (setDefault_int64_present H env field "" old n hflag htag hkey h64) hpre, hpost]

/-- The second scenario of `TestOne`: with `UID=50` in the environment and the
field at 0, `ReadDefaults` succeeds and `UID` is 50. -/
theorem int_round_trip_witness :
    setenv emptyEnv "UID" (Itoa 50) "UID" = some "50" ∧
      ReadDefaults host64 (setenv emptyEnv "UID" (Itoa 50))
          (.ptrStruct (testData "field1" "" 0 "")) =
        (.ptrStruct (testData "field1" "" 50 ""), .ok) :=
  ⟨by decide, (int_round_trip host64 (setenv emptyEnv "UID" (Itoa 50)) (envField "UID" "UID")
    [(envField "F1" "F1", .scalar (.string "field1")),
      (envField "Home" "HOME", .scalar (.string ""))]
    [(envField "User" "USER", .scalar (.string ""))] 0 50 (Or.inr rfl) (by decide) (by decide)
    rfl (by decide) (by decide) (by decide) (by decide) (by decide)).1⟩

/-- A top-level field on which `setDefault` fails, after fields the walk accepts:
`ReadDefaults` returns that failure and leaves the later fields alone. -/
theorem ReadDefaults_of_field_fail (H : Host) (env : Env) (field : StructField)
    (fValue : Value) (pre post : Fields) (hx : field.exported = true)
    (hs : (setDefault H env field fValue "").2 ≠ .ok)
    (hpre : (reflectStruct H env pre "").2 = .ok) :
    ReadDefaults H env (.ptrStruct (pre ++ (field, fValue) :: post)) =
      (.ptrStruct ((reflectStruct H env pre "").1 ++
        (field, (setDefault H env field fValue "").1) :: post),
        (setDefault H env field fValue "").2) := by
  simp only [ReadDefaults, readDefaults]
  rw [reflectStruct_append, if_pos hpre, reflectStruct_cons_fail H env field fValue post "" hx hs]

/-! ## The env tag -/

/-- Splitting at the first separator. -/
theorem splitChars_append_sep (sep : Char) (rest : List Char) :
    ∀ cs : List Char, sep ∉ cs →
      splitChars sep (cs ++ sep :: rest) = cs :: splitChars sep rest := by
  intro cs
  induction cs with
  | nil => intro _; simp [splitChars]
  | cons c cs ih =>
    intro h
    have hc : c ≠ sep := fun e => h (by simp [e])
    have hcs : sep ∉ cs := fun e => h (by simp [e])
    rw [List.cons_append, splitChars, if_neg hc, ih hcs]

/-- The env tag `K,required` splits into the key and the option. -/
theorem Split_key_required (K : String) (hK : ',' ∉ K.data) :
    Split (K ++ ",required") = [K, "required"] := by
  have hdata : (K ++ ",required").data = K.data ++ ',' :: "required".data := by
    rw [String.data_append]
  have hsplit : splitChars ',' "required".data = ["required".data] := by decide
  rw [Split, hdata, splitChars_append_sep ',' _ K.data hK, hsplit]
  rfl

/-- The locals of `setDefault` for the env tag `K,required`. -/
theorem envOptsOf_key_required (H : Host) (name : String) (flag : Option String)
    (K flagName : String) (x : Bool) (hK : ',' ∉ K.data) :
    envOptsOf H ⟨name, flag, some (K ++ ",required"), x⟩ flagName = ⟨K, K, true⟩ := by
  simp [envOptsOf, Split_key_required K hK]

/-- A string field tagged `K,required` under any prefix: the resolved value is
stored, and the call fails exactly when it is empty. -/
theorem setDefault_string_required (H : Host) (env : Env) (name : String)
    (flag : Option String) (K v pfx : String) (x : Bool) (hK : ',' ∉ K.data)
    (hdash : K ≠ "-") (hflag : flag.getD "" ≠ "-") :
    setDefault H env ⟨name, flag, some (K ++ ",required"), x⟩ (.scalar (.string v)) pfx =
      (.scalar (.string ((env K).getD v)),
        if (env K).getD v = "" then .err (.required K) else .ok) := by
  rw [setDefault, if_neg hflag]
  unfold setLeaf
  rw [envOptsOf_key_required H name flag K _ x hK]
  cases hk : env K with
  | none =>
    by_cases hv : v = "" <;>
      simp [hdash, lookupEnv, hk, Value.interface, Value.typeString, Scalar.typeString, hv]
  | some r =>
    by_cases hr : r = "" <;>
      simp [hdash, lookupEnv, hk, Value.interface, Value.typeString, Scalar.typeString, hr]

/-- C3: for a string field tagged `env:"K,required"` among fields that are
accepted, `ReadDefaults` returns an error if and only if the resolved value is
the empty string, the resolved value being the value of `K` in the environment
when `K` is set and the value already in the field otherwise; in both cases the
field holds the resolved value afterwards. So an empty field with `K` not set
fails, `K` set to a non-empty value succeeds and is stored, and a non-empty
field with `K` not set succeeds and is kept. -/
theorem required_string_iff (H : Host) (env : Env) (name : String) (flag : Option String)
    (K v : String) (pre post : Fields) (hK : ',' ∉ K.data) (hdash : K ≠ "-")
    (hflag : flag.getD "" ≠ "-") (hpre : (reflectStruct H env pre "").2 = .ok)
    (hpost : (reflectStruct H env post "").2 = .ok) :
    ((ReadDefaults H env (.ptrStruct (pre ++
        (⟨name, flag, some (K ++ ",required"), true⟩, .scalar (.string v)) :: post))).2.isErr
          = true ↔ (env K).getD v = "") ∧
      ∃ post', (ReadDefaults H env (.ptrStruct (pre ++
        (⟨name, flag, some (K ++ ",required"), true⟩, .scalar (.string v)) :: post))).1 =
          .ptrStruct ((reflectStruct H env pre "").1 ++
            (⟨name, flag, some (K ++ ",required"), true⟩,
              .scalar (.string ((env K).getD v))) :: post') := by
  have hs := setDefault_string_required H env name flag K v "" true hK hdash hflag
  by_cases hr : (env K).getD v = ""
  · rw [if_pos hr] at hs
    have hne : (setDefault H env ⟨name, flag, some (K ++ ",required"), true⟩
        (.scalar (.string v)) "").2 ≠ .ok := by rw [hs]; simp
    rw [ReadDefaults_of_field_fail H env _ _ pre post rfl hne hpre, hs]
    exact ⟨⟨fun _ => hr, fun _ => rfl⟩, post, rfl⟩
  · rw [if_neg hr] at hs
    rw [ReadDefaults_of_field_ok H env _ _ _ pre post rfl hs hpre, hpost]
    exact ⟨⟨fun h => by simp [Outcome.isErr] at h, fun h => absurd h hr⟩, _, rfl⟩

/-- The third scenario of `TestOne`, first call: `Need` is empty and `NEED_IT` is
not set, so `ReadDefaults` fails. -/
theorem required_string_iff_witness :
    ',' ∉ "NEED_IT".data ∧ "NEED_IT" ≠ "-" ∧
      (ReadDefaults host64 emptyEnv (.ptrStruct
        [(⟨"Need", none, some "NEED_IT,required", true⟩, .scalar (.string ""))])).2.isErr
          = true :=
  ⟨by decide, by decide,
    (required_string_iff host64 emptyEnv "Need" none "NEED_IT" "" [] [] (by decide)
      (by decide) (by decide) rfl rfl).1.2 rfl⟩

/-! ## Booleans -/

/-- A character between `a` and `z`, by its code. -/
theorem exists_code_of_lower (c : Char) (h : 97 ≤ c.toNat ∧ c.toNat ≤ 122) :
    ∃ n, 97 ≤ n ∧ n ≤ 122 ∧ c = Char.ofNat n :=
  ⟨c.toNat, h.1, h.2, (Char.ofNat_toNat c).symm⟩

/-- A character between `A` and `Z`, by its code. -/
theorem exists_code_of_upper (c : Char) (h : 65 ≤ c.toNat ∧ c.toNat ≤ 90) :
    ∃ n, 65 ≤ n ∧ n ≤ 90 ∧ c = Char.ofNat n :=
  ⟨c.toNat, h.1, h.2, (Char.ofNat_toNat c).symm⟩

/-- The characters that `strings.ToUpper` sends to one of the letters of `TRUE`
are that letter and its lower case; only `1` is sent to `1`. -/
theorem toUpperRune_eq_iff (c : Char) :
    (toUpperRune c = 'T' ↔ c.toLower = 't') ∧ (toUpperRune c = 'R' ↔ c.toLower = 'r') ∧
      (toUpperRune c = 'U' ↔ c.toLower = 'u') ∧ (toUpperRune c = 'E' ↔ c.toLower = 'e') ∧
      (toUpperRune c = '1' ↔ c = '1') := by
  unfold toUpperRune Char.toLower
  by_cases h1 : 97 ≤ c.toNat ∧ c.toNat ≤ 122
  · obtain ⟨n, h97, h122, rfl⟩ := exists_code_of_lower c h1
    interval_cases n <;> decide
  · by_cases h2 : 65 ≤ c.toNat ∧ c.toNat ≤ 90
    · obtain ⟨n, h65, h90, rfl⟩ := exists_code_of_upper c h2
      interval_cases n <;> decide
    · have h2' : ¬ (c.toNat ≥ 65 ∧ c.toNat ≤ 90) := h2
      simp only [if_neg h1, if_neg h2']
      by_cases h3 : c = Char.ofNat 0x131
      · subst h3; decide
      · by_cases h4 : c = Char.ofNat 0x17F
        · subst h4; decide
        · simp only [if_neg h3, if_neg h4]
          refine ⟨?_, ?_, ?_, ?_, trivial⟩ <;>
            (constructor <;> (intro h; subst h; revert h1 h2; decide))

/-- The test of `lookupEnv` on a bool, `strings.ToUpper(s)` is `TRUE` or `1`,
holds exactly when `s` is `1` or is `true` up to letter case. -/
theorem ToUpper_true_iff (s : String) :
    (ToUpper s = "TRUE" ∨ ToUpper s = "1") ↔
      (s = "1" ∨ s.data.map Char.toLower = ['t', 'r', 'u', 'e']) := by
  have hT : ∀ l : List Char, String.mk l = "TRUE" ↔ l = ['T', 'R', 'U', 'E'] :=
    fun l => ⟨fun h => congrArg String.data h, fun h => congrArg String.mk h⟩
  have h1 : ∀ l : List Char, String.mk l = "1" ↔ l = ['1'] :=
    fun l => ⟨fun h => congrArg String.data h, fun h => congrArg String.mk h⟩
  obtain ⟨l⟩ := s
  simp only [ToUpper, hT, h1]
  rcases l with _ | ⟨a, _ | ⟨b, _ | ⟨c, _ | ⟨d, _ | ⟨e, l⟩⟩⟩⟩⟩ <;>
    simp [toUpperRune_eq_iff]

/-- A bool field whose variable is set, under any prefix: the call succeeds and
stores whether the raw value is `1` or `true` up to letter case. -/
theorem setDefault_bool_present (H : Host) (env : Env) (field : StructField) (pfx : String)
    (b : Bool) (s : String) (hflag : field.flagTag.getD "" ≠ "-")
    (htag : (envOptsOf H field (flagNameOf H field pfx)).envTag ≠ "-")
    (hkey : env (envOptsOf H field (flagNameOf H field pfx)).envName = some s) :
    setDefault H env field (.scalar (.bool b)) pfx =
      (.scalar (.bool (decide (s = "1" ∨ s.data.map Char.toLower = ['t', 'r', 'u', 'e']))),
        .ok) := by
  rw [setDefault, if_neg hflag]
  unfold setLeaf
  by_cases ht : ToUpper s = "TRUE" ∨ ToUpper s = "1"
  · have hd := (ToUpper_true_iff s).1 ht
    simp [htag, lookupEnv, hkey, Value.interface, Value.typeString, Scalar.typeString, ht, hd]
  · have hd : ¬ (s = "1" ∨ s.data.map Char.toLower = ['t', 'r', 'u', 'e']) :=
      fun h => ht ((ToUpper_true_iff s).2 h)
    rw [not_or] at hd ht
    simp [htag, lookupEnv, hkey, Value.interface, Value.typeString, Scalar.typeString, ht.1,
      ht.2, hd.1, hd.2]

/-- C5: a bool field whose environment key is set to the raw value `s` never
makes `ReadDefaults` fail (the outcome is that of the fields after it), and it is
set to true if and only if `s` is "1" or equals "true" ignoring letter case; for
every other `s` it is set to false, whatever it held before. -/
theorem bool_field_permissive (H : Host) (env : Env) (field : StructField)
    (pre post : Fields) (b : Bool) (s : String) (hx : field.exported = true)
    (hflag : field.flagTag.getD "" ≠ "-")
    (htag : (envOptsOf H field (flagNameOf H field "")).envTag ≠ "-")
    (hkey : env (envOptsOf H field (flagNameOf H field "")).envName = some s)
    (hpre : (reflectStruct H env pre "").2 = .ok) :
    ReadDefaults H env (.ptrStruct (pre ++ (field, .scalar (.bool b)) :: post)) =
      (.ptrStruct ((reflectStruct H env pre "").1 ++
        (field, .scalar (.bool
          (decide (s = "1" ∨ s.data.map Char.toLower = ['t', 'r', 'u', 'e'])))) ::
            (reflectStruct H env post "").1),
        (reflectStruct H env post "").2) :=
  ReadDefaults_of_field_ok H env field _ _ pre post hx
    (setDefault_bool_present H env field "" b s hflag htag hkey) hpre

/-- A bool field pre-set to true with `DEBUG=yes` in the environment: the call
succeeds and the field is false. -/
theorem bool_field_permissive_witness :
    setenv emptyEnv "DEBUG" "yes" "DEBUG" = some "yes" ∧
      ReadDefaults host64 (setenv emptyEnv "DEBUG" "yes")
          (.ptrStruct [(plainField "Debug", .scalar (.bool true))]) =
        (.ptrStruct [(plainField "Debug", .scalar (.bool false))], .ok) :=
  ⟨by decide, bool_field_permissive host64 (setenv emptyEnv "DEBUG" "yes")
    (plainField "Debug") [] [] true "yes" rfl (by decide) (by decide) (by decide) rfl⟩

/-! ## The option `required` on the other scalar types -/

/-- A field of a supported type other than string, tagged `K,required` with `K`
not set: `setDefault` succeeds and keeps the content, zero or not. The test
`defaultVal == nil` of defs.go:151 cannot hold, the interface made from the field
being non-nil. -/
theorem setDefault_required_nonstring (H : Host) (env : Env) (name : String)
    (flag : Option String) (K pfx : String) (x : Bool) (s : Scalar) (hK : ',' ∉ K.data)
    (hsup : s.supported = true) (hstr : s.typeString ≠ "string") (hkey : env K = none) :
    setDefault H env ⟨name, flag, some (K ++ ",required"), x⟩ (.scalar s) pfx =
      (.scalar s, .ok) := by
  rw [setDefault]
  split
  · rfl
  · unfold setLeaf
    rw [envOptsOf_key_required H name flag K _ x hK]
    cases s <;>
      simp_all [lookupEnv, Value.interface, Value.typeString, Scalar.typeString,
        Scalar.supported]

/-- C4, what the code does: with no variable set, a struct whose only field is
tagged `env:"N,required"` and holds the zero value of `int`, `int64`, `float64`,
`bool` or `time.Duration` is accepted by `ReadDefaults`; only the empty string is
refused. -/
theorem required_zero_value_accepted (H : Host) :
    (ReadDefaults H emptyEnv (.ptrStruct
        [(⟨"N", none, some "N,required", true⟩, .scalar (.int 0))])).2 = .ok ∧
      (ReadDefaults H emptyEnv (.ptrStruct
        [(⟨"N", none, some "N,required", true⟩, .scalar (.int64 0))])).2 = .ok ∧
      (ReadDefaults H emptyEnv (.ptrStruct
        [(⟨"N", none, some "N,required", true⟩, .scalar (.float64 0))])).2 = .ok ∧
      (ReadDefaults H emptyEnv (.ptrStruct
        [(⟨"N", none, some "N,required", true⟩, .scalar (.bool false))])).2 = .ok ∧
      (ReadDefaults H emptyEnv (.ptrStruct
        [(⟨"N", none, some "N,required", true⟩, .scalar (.duration 0))])).2 = .ok ∧
      (ReadDefaults H emptyEnv (.ptrStruct
        [(⟨"N", none, some "N,required", true⟩, .scalar (.string ""))])).2 =
          .err (.required "N") := by
  have hgen : ∀ s : Scalar, s.supported = true → s.typeString ≠ "string" →
      (ReadDefaults H emptyEnv (.ptrStruct
        [(⟨"N", none, some "N,required", true⟩, .scalar s)])).2 = .ok := by
    intro s hsup hstr
    have h := setDefault_required_nonstring H emptyEnv "N" none "N" "" true s (by decide)
      hsup hstr rfl
    exact congrArg Prod.snd (ReadDefaults_of_field_ok H emptyEnv _ _ _ [] [] rfl h rfl)
  refine ⟨hgen _ rfl (by decide), hgen _ rfl (by decide), hgen _ rfl (by decide),
    hgen _ rfl (by decide), hgen _ rfl (by decide), ?_⟩
  have h := setDefault_string_required H emptyEnv "N" none "N" "" "" true (by decide)
    (by decide) (by decide)
  have hne : (setDefault H emptyEnv ⟨"N", none, some ("N" ++ ",required"), true⟩
      (.scalar (.string "")) "").2 ≠ .ok := by rw [h]; simp [emptyEnv]
  have hr := ReadDefaults_of_field_fail H emptyEnv _ _ [] [] rfl hne rfl
  rw [h] at hr
  exact congrArg Prod.snd hr

/-! ## Derived names -/

/-- Below nested struct fields without flag tags the walk carries `walkPfx` of
their names. -/
theorem fieldAt_pfx (H : Host) :
    ∀ (path : List Nat) (fs : Fields) (pfx : String) (field : StructField) (fValue : Value)
      (q : String), fieldAt H fs pfx path = some (field, fValue, q) →
      (∀ a ∈ ancestorsAt fs path, a.flagTag = none) →
      q = walkPfx H pfx ((ancestorsAt fs path).map (fun a => a.Name)) := by
  intro path
  induction path with
  | nil => intro fs pfx field fValue q h; simp [fieldAt] at h
  | cons i path ih =>
    intro fs pfx field fValue q h hanc
    cases path with
    | nil =>
      simp only [fieldAt, Option.map_eq_some'] at h
      obtain ⟨x, _, hx⟩ := h
      simp only [Prod.mk.injEq] at hx
      simp [ancestorsAt, walkPfx, hx.2.2]
    | cons j path =>
      rw [fieldAt] at h
      rw [ancestorsAt] at hanc ⊢
      split at h
      · next g gs hg =>
        simp only [hg] at hanc ⊢
        have hg0 : g.flagTag = none := hanc g (by simp)
        have hq := ih gs _ field fValue q h (fun a ha => hanc a (by simp [ha]))
        rw [hq]
        simp [walkPfx, childPfx, flagNameOf, hg0]
      · next g gs hg =>
        simp only [hg] at hanc ⊢
        have hg0 : g.flagTag = none := hanc g (by simp)
        have hq := ih gs _ field fValue q h (fun a ha => hanc a (by simp [ha]))
        rw [hq]
        simp [walkPfx, childPfx, flagNameOf, hg0]
      · exact absurd h (by simp)

/-- When hyphenating leaves the hyphenated prefixes as they are, the prefix the
walk carries is the hyphenated names, each followed by a hyphen. -/
theorem walkPfx_eq_joinPfx (H : Host) (names : List String)
    (hfix : ∀ k, H.ToKebab (joinPfx H (names.take k)) = joinPfx H (names.take k)) :
    walkPfx H "" names = joinPfx H names := by
  induction names using List.reverseRecOn with
  | nil => rfl
  | append_singleton ns n ih =>
    have hns : ∀ k, H.ToKebab (joinPfx H (ns.take k)) = joinPfx H (ns.take k) := by
      intro k
      by_cases hk : k ≤ ns.length
      · have := hfix k
        rwa [List.take_append_of_le_length hk] at this
      · have := hfix ns.length
        rw [List.take_append_of_le_length (le_refl _), List.take_length] at this
        rwa [List.take_of_length_le (by omega)]
    have hlast := hfix ns.length
    rw [List.take_append_of_le_length (le_refl _), List.take_length] at hlast
    simp only [walkPfx, joinPfx, List.foldl_append, List.foldl_cons, List.foldl_nil] at ih ⊢
    rw [ih hns]
    simp only [joinPfx] at hlast
    rw [hlast]

/-- The environment enters `setLeaf` only through the variable `envName`. -/
theorem setLeaf_congr (H : Host) (env env' : Env) (field : StructField) (fValue : Value)
    (flagName : String)
    (h : env (envOptsOf H field flagName).envName = env' (envOptsOf H field flagName).envName) :
    setLeaf H env field fValue flagName = setLeaf H env' field fValue flagName := by
  have hl : ∀ d, lookupEnv H env (envOptsOf H field flagName).envName d =
      lookupEnv H env' (envOptsOf H field flagName).envName d := by
    intro d; unfold lookupEnv; rw [h]
  unfold setLeaf
  simp only [hl]

/-- The locals of `setDefault` for a field without env tag. -/
theorem envOptsOf_untagged (H : Host) (field : StructField) (flagName : String)
    (henv : field.envTag = none) :
    envOptsOf H field flagName = ⟨"", H.ToScreamingSnake flagName, false⟩ := by
  have hsplit : Split "" = [""] := by decide
  simp [envOptsOf, henv, hsplit]

/-- C6: key derivation without overrides. For a leaf field reached through
nested struct fields without flag tags, itself without flag or env tag, the
prefix is the hyphenated parent names each followed by "-", the flag name is
hyphenate(prefix) + hyphenate(field name), and the environment key that is
looked up is that flag name in upper-snake-case: the field is populated from that
key and from no other. Hyphenation is that of the host, assumed to leave the
hyphenated prefixes as they are. -/
theorem derived_flag_name_and_key (H : Host) (env env' : Env) (fs : Fields) (path : List Nat)
    (field : StructField) (s : Scalar) (q : String)
    (hat : fieldAt H fs "" path = some (field, .scalar s, q))
    (hanc : ∀ a ∈ ancestorsAt fs path, a.flagTag = none)
    (hflag : field.flagTag = none) (henv : field.envTag = none)
    (hfix : ∀ k, H.ToKebab (joinPfx H (((ancestorsAt fs path).map (fun a => a.Name)).take k)) =
      joinPfx H (((ancestorsAt fs path).map (fun a => a.Name)).take k))
    (hsame : env (H.ToScreamingSnake (H.ToKebab q ++ H.ToKebab field.Name)) =
      env' (H.ToScreamingSnake (H.ToKebab q ++ H.ToKebab field.Name))) :
    q = joinPfx H ((ancestorsAt fs path).map (fun a => a.Name)) ∧
      flagNameOf H field q = H.ToKebab q ++ H.ToKebab field.Name ∧
      envOptsOf H field (flagNameOf H field q) =
        ⟨"", H.ToScreamingSnake (flagNameOf H field q), false⟩ ∧
      setDefault H env field (.scalar s) q = setDefault H env' field (.scalar s) q := by
  have hq := fieldAt_pfx H path fs "" field (.scalar s) q hat hanc
  rw [walkPfx_eq_joinPfx H _ hfix] at hq
  have hname : flagNameOf H field q = H.ToKebab q ++ H.ToKebab field.Name := by
    simp [flagNameOf, hflag]
  have hopts := envOptsOf_untagged H field (flagNameOf H field q) henv
  refine ⟨hq, hname, hopts, ?_⟩
  rw [setDefault, setDefault]
  simp only [hflag, Option.getD_none]
  rw [if_neg (by decide), if_neg (by decide)]
  apply setLeaf_congr
  rw [hopts, hname]
  exact hsame

/-- The field `MaxRetries` inside the struct field `Server`: its flag name is
`server-max-retries`, its key is `SERVER_MAX_RETRIES`, and with that variable at 5
`ReadDefaults` stores 5. -/
theorem derived_flag_name_and_key_witness :
    fieldAt host64 (serverConfig 3) "" [0, 0] =
        some (plainField "MaxRetries", .scalar (.int 3), "server-") ∧
      flagNameOf host64 (plainField "MaxRetries") "server-" = "server-max-retries" ∧
      envOptsOf host64 (plainField "MaxRetries") "server-max-retries" =
        ⟨"", "SERVER_MAX_RETRIES", false⟩ ∧
      (ReadDefaults host64 (setenv emptyEnv "SERVER_MAX_RETRIES" "5")
        (.ptrStruct (serverConfig 3))).1.fields = some (serverConfig 5) ∧
      (ReadDefaults host64 (setenv (setenv emptyEnv "MAX_RETRIES" "7") "SERVER-MAX-RETRIES" "8")
        (.ptrStruct (serverConfig 3))).1.fields = some (serverConfig 3) :=
  have h := derived_flag_name_and_key host64 emptyEnv emptyEnv (serverConfig 3) [0, 0]
    (plainField "MaxRetries") (.int 3) "server-" rfl (by decide) rfl rfl
    (by
      intro k
      rcases k with _ | k
      · decide
      · have ht : (List.map (fun a => a.Name) (ancestorsAt (serverConfig 3) [0, 0])).take (k + 1)
            = ["Server"] := by
          have hl : List.map (fun a => a.Name) (ancestorsAt (serverConfig 3) [0, 0]) =
              ["Server"] := by decide
          rw [hl]; simp
        rw [ht]; decide)
    rfl
  ⟨rfl, h.2.1, h.2.2.1, rfl, rfl⟩

/-! ## The argument of `ReadDefaults` -/

/-- The errors of `lookupEnv` are conversion and unsupported-type errors. -/
theorem lookupEnv_ne_notStructPointer (H : Host) (env : Env) (envNm : String)
    (d : Option Scalar) : lookupEnv H env envNm d ≠ .error .notStructPointer := by
  unfold lookupEnv
  simp only []
  repeat' split
  all_goals simp

/-- The leaf part of `setDefault` never returns the error of `readDefaults`. -/
theorem setLeaf_ne_notStructPointer (H : Host) (env : Env) (field : StructField)
    (fValue : Value) (flagName : String) :
    (setLeaf H env field fValue flagName).2 ≠ .err .notStructPointer := by
  unfold setLeaf
  simp only []
  split
  · next e he =>
    intro h
    simp only [Outcome.err.injEq] at h
    subst h
    split at he
    · exact lookupEnv_ne_notStructPointer H env _ _ he
    · simp at he
  · repeat' split
    all_goals simp

/-- Nor does `setDefault`: the error of a nested struct is wrapped. -/
theorem setDefault_ne_notStructPointer (H : Host) (env : Env) (field : StructField)
    (fValue : Value) (pfx : String) :
    (setDefault H env field fValue pfx).2 ≠ .err .notStructPointer := by
  cases fValue with
  | scalar s =>
    rw [setDefault]
    split
    · simp
    · exact setLeaf_ne_notStructPointer H env field _ _
  | iface typ dyn =>
    rw [setDefault]
    split
    · simp
    · exact setLeaf_ne_notStructPointer H env field _ _
  | struct fs =>
    rw [setDefault]
    split
    · simp
    · cases h : (reflectStruct H env fs (childPfx H field pfx)).2 <;> simp [wrapOutcome, h]
  | ptrNil => rw [setDefault]; simp
  | ptrStruct fs =>
    rw [setDefault]
    split
    · simp
    · cases h : (reflectStruct H env fs (childPfx H field pfx)).2 <;> simp [wrapOutcome, h]
  | ptrOther => rw [setDefault]; simp

/-- Nor does the walk over a struct. -/
theorem reflectStruct_ne_notStructPointer (H : Host) (env : Env) (pfx : String)
    (fs : Fields) : (reflectStruct H env fs pfx).2 ≠ .err .notStructPointer := by
  induction fs with
  | nil => simp [reflectStruct]
  | cons x rest ih =>
    obtain ⟨g, w⟩ := x
    cases hx : g.exported with
    | false => rw [reflectStruct_cons_unexported H env g w rest pfx hx]; exact ih
    | true =>
      by_cases hs : (setDefault H env g w pfx).2 = .ok
      · have hs' : setDefault H env g w pfx = ((setDefault H env g w pfx).1, .ok) := by
          rw [← hs]
        rw [reflectStruct_cons_ok H env g w _ rest pfx hx hs']; exact ih
      · rw [reflectStruct_cons_fail H env g w rest pfx hx hs]
        exact setDefault_ne_notStructPointer H env g w pfx

/-- C7, what the code does: the nil interface, a value that is not a pointer and
a nil pointer are refused with the error "argument is not a struct pointer"
before any field is touched, and a pointer to a struct is handed to
`reflectStruct` and never gets that error; but a non-nil pointer to a non-struct
passes the test of defs.go:74 and panics in `reflectStruct`, no error being
returned. -/
theorem readDefaults_argument (H : Host) (env : Env) :
    ReadDefaults H env .nilInterface = (.nilInterface, .err .notStructPointer) ∧
      (∀ v, ReadDefaults H env (.nonPointer v) = (.nonPointer v, .err .notStructPointer)) ∧
      ReadDefaults H env .nilPointer = (.nilPointer, .err .notStructPointer) ∧
      (∀ fs, ReadDefaults H env (.ptrStruct fs) =
        (.ptrStruct (reflectStruct H env fs "").1, (reflectStruct H env fs "").2)) ∧
      (∀ fs, (ReadDefaults H env (.ptrStruct fs)).2 ≠ .err .notStructPointer) ∧
      (ReadDefaults H env .ptrOther).2 ≠ .err .notStructPointer ∧
      (ReadDefaults H env .ptrOther).2 =
        .panic "reflect: call of reflect.Value.NumField on non-struct Value" := by
  refine ⟨rfl, fun _ => rfl, rfl, fun _ => rfl,
    fun fs => reflectStruct_ne_notStructPointer H env "" fs, ?_, rfl⟩
  simp [ReadDefaults, readDefaults]

/-! ## Suppressed lookups and ignored fields -/

/-- A field of interface type is never written. -/
theorem setLeaf_iface_fst (H : Host) (env : Env) (field : StructField) (typ : String)
    (dyn : Option Scalar) (flagName : String) :
    (setLeaf H env field (.iface typ dyn) flagName).1 = .iface typ dyn := by
  unfold setLeaf
  simp only []
  repeat' split
  all_goals rfl

/-- The kinds of a leaf. -/
theorem Value.isLeaf_cases (fValue : Value) (h : fValue.isLeaf = true) :
    (∃ s, fValue = .scalar s) ∨ ∃ typ dyn, fValue = .iface typ dyn := by
  cases fValue <;> simp [Value.isLeaf] at h
  · exact Or.inl ⟨_, rfl⟩
  · exact Or.inr ⟨_, _, rfl⟩

/-- A leaf whose variable is not consulted or not set keeps its content. -/
theorem setDefault_leaf_fst_of_kept (H : Host) (env : Env) (field : StructField)
    (fValue : Value) (pfx : String) (hleaf : fValue.isLeaf = true)
    (h : (envOptsOf H field (flagNameOf H field pfx)).envTag = "-" ∨
      env (envOptsOf H field (flagNameOf H field pfx)).envName = none) :
    (setDefault H env field fValue pfx).1 = fValue := by
  rcases Value.isLeaf_cases fValue hleaf with ⟨s, rfl⟩ | ⟨typ, dyn, rfl⟩
  · exact setDefault_scalar_fst_of_kept H env field s pfx h
  · rw [setDefault]
    split
    · rfl
    · exact setLeaf_iface_fst H env field typ dyn _

/-- With the env tag at "-", `setLeaf` does not depend on the environment. -/
theorem setLeaf_of_dash (H : Host) (env env' : Env) (field : StructField) (fValue : Value)
    (flagName : String) (h : (envOptsOf H field flagName).envTag = "-") :
    setLeaf H env field fValue flagName = setLeaf H env' field fValue flagName := by
  unfold setLeaf
  simp only [h, ne_eq, not_true_eq_false, if_false]

/-- The result of `splitChars` is never empty. -/
theorem splitChars_ne_nil (sep : Char) (cs : List Char) : splitChars sep cs ≠ [] := by
  cases cs with
  | nil => simp [splitChars]
  | cons c cs =>
    rw [splitChars]
    split
    · simp
    · split <;> simp

/-- The local `envTag` of `setDefault` is "-" for the env tags `-` and `-,opts`. -/
theorem envOptsOf_dash (H : Host) (field : StructField) (flagName t : String)
    (htag : field.envTag = some t) (hdash : t = "-" ∨ ∃ opts : String, t = "-," ++ opts) :
    (envOptsOf H field flagName).envTag = "-" := by
  rcases hdash with rfl | ⟨opts, rfl⟩
  · have hsplit : Split "-" = ["-"] := by decide
    simp [envOptsOf, htag, hsplit]
  · have hdata : ("-," ++ opts).data = ['-'] ++ ',' :: opts.data := by
      rw [String.data_append]; rfl
    have hsplit : Split ("-," ++ opts) = "-" :: (splitChars ',' opts.data).map String.mk := by
      rw [Split, hdata, splitChars_append_sep ',' _ ['-'] (by decide)]
      rfl
    have hlen : 0 < (splitChars ',' opts.data).length :=
      List.length_pos.2 (splitChars_ne_nil _ _)
    simp [envOptsOf, htag, hsplit, hlen]

/-- C8: a leaf field whose env tag has "-" as its name component (`env:"-"` or
`env:"-,opts"`) is processed without the environment being consulted: what
`setDefault` does on it is the same in every environment, and after
`ReadDefaults` it holds the value it held before, wherever it sits in the struct
and whatever the environment defines. -/
theorem env_dash_never_consults (H : Host) (env : Env) (fs : Fields) (path : List Nat)
    (field : StructField) (fValue : Value) (q t : String)
    (hat : fieldAt H fs "" path = some (field, fValue, q)) (hleaf : fValue.isLeaf = true)
    (htag : field.envTag = some t) (hdash : t = "-" ∨ ∃ opts : String, t = "-," ++ opts) :
    (∀ env' : Env, setDefault H env' field fValue q = setDefault H env field fValue q) ∧
      ∃ fs', (ReadDefaults H env (.ptrStruct fs)).1 = .ptrStruct fs' ∧
        fieldAt H fs' "" path = some (field, fValue, q) := by
  have ho := envOptsOf_dash H field (flagNameOf H field q) t htag hdash
  constructor
  · intro env'
    rcases Value.isLeaf_cases fValue hleaf with ⟨s, rfl⟩ | ⟨typ, dyn, rfl⟩
    · rw [setDefault, setDefault]
      split
      · rfl
      · exact setLeaf_of_dash H env' env field _ _ ho
    · rw [setDefault, setDefault]
      split
      · rfl
      · exact setLeaf_of_dash H env' env field _ _ ho
  · refine ⟨(reflectStruct H env fs "").1, rfl, ?_⟩
    rcases fieldAt_reflectStruct H env path fs "" field fValue q hat with h | h
    · exact h
    · rw [h, setDefault_leaf_fst_of_kept H env field fValue q hleaf (Or.inl ho)]

/-- A string field tagged `env:"-"` keeps its value although the environment
defines both a variable named "-" and the derived key `NAME`. -/
theorem env_dash_never_consults_witness :
    fieldAt host64 [(envField "Name" "-", .scalar (.string "kept"))] "" [0] =
        some (envField "Name" "-", .scalar (.string "kept"), "") ∧
      setenv (setenv emptyEnv "-" "x") "NAME" "y" "-" = some "x" ∧
      setenv (setenv emptyEnv "-" "x") "NAME" "y" "NAME" = some "y" ∧
      ∃ fs', (ReadDefaults host64 (setenv (setenv emptyEnv "-" "x") "NAME" "y")
          (.ptrStruct [(envField "Name" "-", .scalar (.string "kept"))])).1 = .ptrStruct fs' ∧
        fieldAt host64 fs' "" [0] = some (envField "Name" "-", .scalar (.string "kept"), "") :=
  ⟨rfl, by decide, by decide,
    (env_dash_never_consults host64 (setenv (setenv emptyEnv "-" "x") "NAME" "y")
      [(envField "Name" "-", .scalar (.string "kept"))] [0] (envField "Name" "-")
      (.scalar (.string "kept")) "" "-" rfl rfl rfl (Or.inl rfl)).2⟩

/-- A field whose flag tag is "-" is passed over, whatever its kind. -/
theorem setDefault_flag_dash (H : Host) (env : Env) (field : StructField) (fValue : Value)
    (pfx : String) (hflag : field.flagTag = some "-") :
    setDefault H env field fValue pfx = (fValue, .ok) := by
  cases fValue <;> simp [setDefault, hflag]

/-- C9: a field whose flag tag is exactly "-", be it a leaf of any type, a
nested struct or a pointer, is processed with success and no action: `setDefault`
returns nil and leaves the field and everything beneath it as they are in every
environment, and after `ReadDefaults` the field, with all its descendants, is
what it was before. -/
theorem flag_dash_ignored (H : Host) (env : Env) (fs : Fields) (path : List Nat)
    (field : StructField) (fValue : Value) (q : String)
    (hat : fieldAt H fs "" path = some (field, fValue, q))
    (hflag : field.flagTag = some "-") :
    (∀ env' : Env, setDefault H env' field fValue q = (fValue, .ok)) ∧
      ∃ fs', (ReadDefaults H env (.ptrStruct fs)).1 = .ptrStruct fs' ∧
        fieldAt H fs' "" path = some (field, fValue, q) := by
  refine ⟨fun env' => setDefault_flag_dash H env' field fValue q hflag,
    (reflectStruct H env fs "").1, rfl, ?_⟩
  rcases fieldAt_reflectStruct H env path fs "" field fValue q hat with h | h
  · exact h
  · rw [h, setDefault_flag_dash H env field fValue q hflag]

/-- A nested struct tagged `flag:"-"` whose field `Port` has its derived key set
in the environment: the struct is left as it was. -/
theorem flag_dash_ignored_witness :
    fieldAt host64 [(⟨"Server", some "-", none, true⟩,
        .struct [(plainField "Port", .scalar (.int 80))])] "" [0] =
        some (⟨"Server", some "-", none, true⟩,
          .struct [(plainField "Port", .scalar (.int 80))], "") ∧
      ∃ fs', (ReadDefaults host64 (setenv (setenv emptyEnv "SERVER_PORT" "81") "PORT" "82")
          (.ptrStruct [(⟨"Server", some "-", none, true⟩,
            .struct [(plainField "Port", .scalar (.int 80))])])).1 = .ptrStruct fs' ∧
        fieldAt host64 fs' "" [0] = some (⟨"Server", some "-", none, true⟩,
          .struct [(plainField "Port", .scalar (.int 80))], "") :=
  ⟨rfl, (flag_dash_ignored host64 (setenv (setenv emptyEnv "SERVER_PORT" "81") "PORT" "82")
    [(⟨"Server", some "-", none, true⟩, .struct [(plainField "Port", .scalar (.int 80))])] [0]
    ⟨"Server", some "-", none, true⟩ (.struct [(plainField "Port", .scalar (.int 80))]) ""
    rfl rfl).2⟩

/-! ## Nil pointers -/

/-- The walk keeps the number of fields. -/
theorem reflectStruct_length (H : Host) (env : Env) (pfx : String) (fs : Fields) :
    (reflectStruct H env fs pfx).1.length = fs.length := by
  induction fs with
  | nil => simp [reflectStruct]
  | cons x rest ih =>
    obtain ⟨g, w⟩ := x
    cases hx : g.exported with
    | false => rw [reflectStruct_cons_unexported H env g w rest pfx hx]; simp [ih]
    | true =>
      by_cases hs : (setDefault H env g w pfx).2 = .ok
      · have hs' : setDefault H env g w pfx = ((setDefault H env g w pfx).1, .ok) := by
          rw [← hs]
        rw [reflectStruct_cons_ok H env g w _ rest pfx hx hs']; simp [ih]
      · rw [reflectStruct_cons_fail H env g w rest pfx hx hs]; simp

/-- The loop passes a nil pointer and goes on with the next field. -/
theorem reflectStruct_cons_ptrNil (H : Host) (env : Env) (field : StructField)
    (rest : Fields) (pfx : String) :
    reflectStruct H env ((field, .ptrNil) :: rest) pfx =
      ((field, .ptrNil) :: (reflectStruct H env rest pfx).1,
        (reflectStruct H env rest pfx).2) := by
  cases hx : field.exported with
  | false => exact reflectStruct_cons_unexported H env field _ rest pfx hx
  | true =>
    exact reflectStruct_cons_ok H env field _ _ rest pfx hx (by rw [setDefault])

/-- Taking a nil pointer field out of a struct changes neither what the walk does
to the other fields nor what it returns. -/
theorem reflectStruct_insert_ptrNil (H : Host) (env : Env) (field : StructField)
    (pre post : Fields) (pfx : String) :
    ∃ pre' post' out, pre'.length = pre.length ∧
      reflectStruct H env (pre ++ post) pfx = (pre' ++ post', out) ∧
      reflectStruct H env (pre ++ (field, .ptrNil) :: post) pfx =
        (pre' ++ (field, .ptrNil) :: post', out) := by
  rw [reflectStruct_append, reflectStruct_append, reflectStruct_cons_ptrNil]
  by_cases hpre : (reflectStruct H env pre pfx).2 = .ok
  · exact ⟨_, _, _, reflectStruct_length H env pfx pre, by rw [if_pos hpre],
      by rw [if_pos hpre]⟩
  · exact ⟨_, _, _, reflectStruct_length H env pfx pre, by rw [if_neg hpre],
      by rw [if_neg hpre]⟩

/-- C10: a struct field that is a nil pointer is skipped without error and
without recursion in every environment (`setDefault` returns nil and the field
stays nil), and `ReadDefaults` on a struct that contains it does to all the other
fields, those declared after it included, and returns, exactly what it does and
returns for the struct without that field. The same holds for the walk over a
nested struct, under any prefix. -/
theorem nil_pointer_skipped (H : Host) (env : Env) (field : StructField) (pre post : Fields)
    (pfx : String) :
    setDefault H env field .ptrNil pfx = (.ptrNil, .ok) ∧
      (∃ pre' post' out, pre'.length = pre.length ∧
        ReadDefaults H env (.ptrStruct (pre ++ post)) = (.ptrStruct (pre' ++ post'), out) ∧
        ReadDefaults H env (.ptrStruct (pre ++ (field, .ptrNil) :: post)) =
          (.ptrStruct (pre' ++ (field, .ptrNil) :: post'), out)) ∧
      ∃ pre' post' out, pre'.length = pre.length ∧
        reflectStruct H env (pre ++ post) pfx = (pre' ++ post', out) ∧
        reflectStruct H env (pre ++ (field, .ptrNil) :: post) pfx =
          (pre' ++ (field, .ptrNil) :: post', out) := by
  refine ⟨by rw [setDefault], ?_, reflectStruct_insert_ptrNil H env field pre post pfx⟩
  obtain ⟨pre', post', out, hlen, h1, h2⟩ := reflectStruct_insert_ptrNil H env field pre post ""
  refine ⟨pre', post', out, hlen, ?_, ?_⟩
  · simp only [ReadDefaults, readDefaults, h1]
  · simp only [ReadDefaults, readDefaults, h2]

/-! ## Unsupported types -/

/-- A leaf of a type other than the six, under any prefix: `setDefault` fails and
leaves the field alone. When the variable is consulted and set the error is that
of `lookupEnv`, which prints the value; otherwise it is that of the type switch
of `setDefault`, which prints the type. -/
theorem setDefault_other (H : Host) (env : Env) (field : StructField) (typ repr pfx : String)
    (hflag : field.flagTag.getD "" ≠ "-") (htyp : typ ∉ supportedTypeNames) :
    setDefault H env field (.scalar (.other typ repr)) pfx =
      (.scalar (.other typ repr),
        .err (if (envOptsOf H field (flagNameOf H field pfx)).envTag ≠ "-" ∧
            (env (envOptsOf H field (flagNameOf H field pfx)).envName).isSome = true
          then .unsupportedValue (envOptsOf H field (flagNameOf H field pfx)).envName repr
          else .unsupportedType typ)) := by
  have hnames : typ ≠ "int" ∧ typ ≠ "int64" ∧ typ ≠ "float64" ∧ typ ≠ "string" ∧
      typ ≠ "bool" ∧ typ ≠ "time.Duration" := by
    simpa [supportedTypeNames] using htyp
  obtain ⟨h1, h2, h3, h4, h5, h6⟩ := hnames
  rw [setDefault, if_neg hflag]
  unfold setLeaf
  simp only []
  by_cases htag : (envOptsOf H field (flagNameOf H field pfx)).envTag = "-"
  · simp only [htag, ne_eq, not_true_eq_false, if_false, false_and, Value.interface,
      Option.isNone_some, Bool.and_false, Bool.false_eq_true, Value.typeString,
      Scalar.typeString]
  · cases hk : env (envOptsOf H field (flagNameOf H field pfx)).envName with
    | none =>
      simp only [htag, ne_eq, not_false_eq_true, if_true, true_and, Value.interface,
        lookupEnv, hk, Option.isSome_none, Bool.false_eq_true, if_false,
        Option.isNone_some, Bool.and_false, Value.typeString, Scalar.typeString]
    | some res =>
      simp [htag, Value.interface, lookupEnv, hk]

/-- C11, the claim as stated fails, at two inputs. A field of interface type is
a leaf whose static type is none of the six, yet with `V` holding the int 5 and
`V=abc` in the environment `ReadDefaults` fails with the conversion error of
`strconv.Atoi`, not with an unsupported-type error. And a field whose type is
none of the six but is printed by `Type.String()` like one of them, such as the
type `Duration` of another package named `time`, enters the branch of that name
in the type switch of `setDefault` (defs.go:159, 183-185): with no variable set
the type assertion panics and no error is returned. -/
theorem unsupported_type_counterexample :
    (ReadDefaults host64 (setenv emptyEnv "V" "abc")
      (.ptrStruct [(plainField "V", .iface "interface {}" (some (.int 5)))])).2 =
      .err (.conversion (.num ⟨"Atoi", "abc", .syntaxErr⟩) "V" "abc") ∧
      (ReadDefaults host64 emptyEnv
        (.ptrStruct [(plainField "D", .scalar (.other "time.Duration" "5"))])).2 =
        .panic "interface conversion" := by
  decide

/-- C11, amended: an exported leaf field that is not ignored by flag "-", whose
static type is not an interface type and is printed by `Type.String()` as none of
the six names `int`, `int64`, `float64`, `string`, `bool`, `time.Duration` (so it
is neither one of the six supported scalars nor a type of another package that
prints like one of them), makes `ReadDefaults` fail with an unsupported-type
error, whether its key is set or not, and keeps its value; when the key is not
set (or the lookup is suppressed) the error is that of `setDefault` and names the
type of the field, and when the key is set it is that of `lookupEnv`. The value
`.other typ repr` stands for any value of a type that is neither an interface
type nor one of the six, and `htyp` says how the type is printed. -/
theorem unsupported_type_fails (H : Host) (env : Env) (field : StructField)
    (typ repr : String) (pre post : Fields) (hx : field.exported = true)
    (hflag : field.flagTag.getD "" ≠ "-") (htyp : typ ∉ supportedTypeNames)
    (hpre : (reflectStruct H env pre "").2 = .ok) :
    ReadDefaults H env (.ptrStruct (pre ++ (field, .scalar (.other typ repr)) :: post)) =
      (.ptrStruct ((reflectStruct H env pre "").1 ++
        (field, .scalar (.other typ repr)) :: post),
        .err (if (envOptsOf H field (flagNameOf H field "")).envTag ≠ "-" ∧
            (env (envOptsOf H field (flagNameOf H field "")).envName).isSome = true
          then .unsupportedValue (envOptsOf H field (flagNameOf H field "")).envName repr
          else .unsupportedType typ)) := by
  have hs := setDefault_other H env field typ repr "" hflag htyp
  have hne : (setDefault H env field (.scalar (.other typ repr)) "").2 ≠ .ok := by
    rw [hs]; simp
  rw [ReadDefaults_of_field_fail H env field _ pre post hx hne hpre, hs]

/-- A `uint` field holding 7: with no variable set the error names the type
`uint`; with `N=1` set the error is that of `lookupEnv`, whose text carries the
value 7. -/
theorem unsupported_type_fails_witness :
    "uint" ∉ supportedTypeNames ∧
      (ReadDefaults host64 emptyEnv
        (.ptrStruct [(plainField "N", .scalar (.other "uint" "7"))])).2 =
          .err (.unsupportedType "uint") ∧
      (ReadDefaults host64 (setenv emptyEnv "N" "1")
        (.ptrStruct [(plainField "N", .scalar (.other "uint" "7"))])).2 =
          .err (.unsupportedValue "N" "7") :=
  ⟨by decide,
    congrArg Prod.snd (unsupported_type_fails host64 emptyEnv (plainField "N") "uint" "7"
      [] [] rfl (by decide) (by decide) rfl),
    congrArg Prod.snd (unsupported_type_fails host64 (setenv emptyEnv "N" "1") (plainField "N")
      "uint" "7" [] [] rfl (by decide) (by decide) rfl)⟩

/-! ## Integer literals -/

/-- Reading digits never lowers the number read so far. -/
theorem le_digitsValue (ds : List Char) : ∀ n, n ≤ digitsValue n ds := by
  induction ds with
  | nil => intro n; exact le_refl n
  | cons c cs ih =>
    intro n
    have := ih (n * 10 + (c.toNat - 48))
    simp only [digitsValue, List.foldl_cons] at this ⊢
    omega

/-- The loop of `ParseUint` accepts a string of digits whose value fits. -/
theorem parseUintLoop_of_digits (maxVal : Nat) (hmax : maxVal < 2 ^ 64) (ds : List Char) :
    ∀ n, ds.all Char.isDigit = true → digitsValue n ds ≤ maxVal →
      parseUintLoop maxVal ds n = .ok (digitsValue n ds) := by
  induction ds with
  | nil => intro n _ _; rfl
  | cons c cs ih =>
    intro n hall hle
    simp only [List.all_cons, Bool.and_eq_true] at hall
    have hmono := le_digitsValue cs (n * 10 + (c.toNat - 48))
    have hle' : digitsValue (n * 10 + (c.toNat - 48)) cs ≤ maxVal := by
      simpa [digitsValue] using hle
    have h1 : ¬ (n ≥ (2 ^ 64 - 1) / 10 + 1) := by omega
    have h2 : ¬ (n * 10 + (c.toNat - 48) > maxVal) := by omega
    rw [parseUintLoop, if_pos hall.1, if_neg h1, if_neg h2, ih _ hall.2 hle']
    simp [digitsValue]

/-- What the loop of `ParseUint` accepts is a string of digits whose value fits. -/
theorem digits_of_parseUintLoop (maxVal : Nat) (ds : List Char) :
    ∀ n v, parseUintLoop maxVal ds n = .ok v →
      ds.all Char.isDigit = true ∧ v = digitsValue n ds ∧ (ds ≠ [] → v ≤ maxVal) := by
  induction ds with
  | nil =>
    intro n v h
    simp only [parseUintLoop, Except.ok.injEq] at h
    exact ⟨rfl, h.symm, fun h => absurd rfl h⟩
  | cons c cs ih =>
    intro n v h
    rw [parseUintLoop] at h
    split at h
    · next hd =>
      split at h
      · exact absurd h (by simp)
      · split at h
        · exact absurd h (by simp)
        · next h2 =>
          obtain ⟨hall, hv, hle⟩ := ih _ v h
          refine ⟨by simp [hd, hall], by simpa [digitsValue] using hv, fun _ => ?_⟩
          cases cs with
          | nil => simp only [digitsValue, List.foldl_nil] at hv; omega
          | cons d cs => exact hle (by simp)
    · exact absurd h (by simp)

/-- The call `ParseInt(s, 10, bitSize)` after the sign: `digits` is what follows
the sign and `neg` tells a minus sign. -/
theorem ParseInt_cons (c : Char) (rest : List Char) (bitSize : Nat) :
    ParseInt ⟨c :: rest⟩ bitSize =
      match (if c = '+' ∨ c = '-' then rest else c :: rest) with
      | [] => .error ⟨"ParseInt", ⟨c :: rest⟩, .syntaxErr⟩
      | d :: ds =>
        match parseUintLoop (2 ^ bitSize - 1) (d :: ds) 0 with
        | .error k => .error ⟨"ParseInt", ⟨c :: rest⟩, k⟩
        | .ok un =>
          if c ≠ '-' ∧ un ≥ 2 ^ (bitSize - 1) then .error ⟨"ParseInt", ⟨c :: rest⟩, .rangeErr⟩
          else if c = '-' ∧ un > 2 ^ (bitSize - 1) then
            .error ⟨"ParseInt", ⟨c :: rest⟩, .rangeErr⟩
          else .ok (if c = '-' then -(un : Int) else (un : Int)) := by
  unfold ParseInt
  simp only []
  have hP : (if (c == '+' || c == '-') = true then rest else c :: rest) =
      (if c = '+' ∨ c = '-' then rest else c :: rest) := by
    simp
  rw [hP]
  cases hds : (if c = '+' ∨ c = '-' then rest else c :: rest) with
  | nil => rfl
  | cons d ds =>
    simp only []
    cases hloop : parseUintLoop (2 ^ bitSize - 1) (d :: ds) 0 with
    | error k => cases k <;> rfl
    | ok un =>
      simp only []
      by_cases hneg : c = '-' <;> simp [hneg]

/-- The call `ParseInt(s, 10, bitSize)` succeeds exactly on the integer literals
that fit `bitSize` bits, with their value; its errors carry the input. -/
theorem ParseInt_eq_intLiteral (s : String) (bitSize : Nat) (h1 : 1 ≤ bitSize)
    (h64 : bitSize ≤ 64) :
    ∃ kind, ParseInt s bitSize =
      match intLiteral bitSize s with
      | some v => .ok v
      | none => .error ⟨"ParseInt", s, kind⟩ := by
  have hpos : 0 < (2 : Nat) ^ (bitSize - 1) := Nat.pow_pos (by decide)
  have hpow : (2 : Nat) ^ (bitSize - 1) ≤ 2 ^ bitSize - 1 := by
    have : (2 : Nat) ^ bitSize = 2 ^ (bitSize - 1) * 2 := by
      rw [← pow_succ]; congr 1; omega
    omega
  have hmax : 2 ^ bitSize - 1 < 2 ^ 64 := by
    have : (2 : Nat) ^ bitSize ≤ 2 ^ 64 := Nat.pow_le_pow_right (by decide) h64
    have hpos' : 0 < (2 : Nat) ^ bitSize := Nat.pow_pos (by decide)
    omega
  have hcast : (((2 : Nat) ^ (bitSize - 1) : Nat) : Int) = (2 : Int) ^ (bitSize - 1) := by
    push_cast; rfl
  obtain ⟨l⟩ := s
  cases l with
  | nil => exact ⟨.syntaxErr, by simp [ParseInt, intLiteral, decimalLiteral]⟩
  | cons c rest =>
    rw [ParseInt_cons]
    simp only [intLiteral, decimalLiteral]
    cases hds : (if c = '+' ∨ c = '-' then rest else c :: rest) with
    | nil => exact ⟨.syntaxErr, by simp⟩
    | cons d ds =>
      have hne : d :: ds ≠ [] := by simp
      simp only []
      cases hloop : parseUintLoop (2 ^ bitSize - 1) (d :: ds) 0 with
      | error k =>
        refine ⟨k, ?_⟩
        by_cases hall : (d :: ds).all Char.isDigit = true
        · have hbig : ¬ (digitsValue 0 (d :: ds) ≤ 2 ^ bitSize - 1) := by
            intro hle
            rw [parseUintLoop_of_digits _ hmax _ 0 hall hle] at hloop
            exact absurd hloop (by simp)
          have hb1 : ¬ ((digitsValue 0 (d :: ds) : Int) ≤ 2 ^ (bitSize - 1)) := by omega
          have hb2 : ¬ ((digitsValue 0 (d :: ds) : Int) < 2 ^ (bitSize - 1)) := by omega
          rw [if_pos ⟨hne, hall⟩]
          by_cases hneg : c = '-'
          · simp [hneg, Option.filter, hb1]
          · simp [hneg, Option.filter, hb2]
        · rw [if_neg (fun h => hall h.2)]; rfl
      | ok un =>
        obtain ⟨hall, hun, hle⟩ := digits_of_parseUintLoop _ _ 0 un hloop
        have hle' := hle hne
        refine ⟨.rangeErr, ?_⟩
        rw [if_pos ⟨hne, hall⟩, ← hun]
        by_cases hneg : c = '-'
        · by_cases hr : un > 2 ^ (bitSize - 1)
          · have hb1 : ¬ ((un : Int) ≤ 2 ^ (bitSize - 1)) := by omega
            simp [hneg, Option.filter, hr, hb1]
          · have hb1 : (un : Int) ≤ 2 ^ (bitSize - 1) := by omega
            have hb2 : -(un : Int) < 2 ^ (bitSize - 1) := by omega
            have hr' : ¬ (2 ^ (bitSize - 1) < un) := hr
            simp [hneg, Option.filter, hr', hb1, hb2]
        · by_cases hr : un ≥ 2 ^ (bitSize - 1)
          · have hb1 : ¬ ((un : Int) < 2 ^ (bitSize - 1)) := by omega
            simp [hneg, Option.filter, hr, hb1]
          · have hb1 : (un : Int) < 2 ^ (bitSize - 1) := by omega
            have hb2 : -(2 : Int) ^ (bitSize - 1) ≤ (un : Int) := by omega
            have hr' : ¬ (2 ^ (bitSize - 1) ≤ un) := hr
            simp [hneg, Option.filter, hr', hb1, hb2]

/-- The function `Atoi` succeeds exactly on the integer literals that fit the
native `int`, with their value; its errors carry the input. -/
theorem Atoi_eq_intLiteral (intSize : Nat) (s : String)
    (hsize : intSize = 32 ∨ intSize = 64) :
    ∃ kind, Atoi intSize s =
      match intLiteral intSize s with
      | some v => .ok v
      | none => .error ⟨"Atoi", s, kind⟩ := by
  obtain ⟨kind, h⟩ := ParseInt_eq_intLiteral s intSize (by omega) (by omega)
  refine ⟨kind, ?_⟩
  rw [Atoi, h]
  cases intLiteral intSize s <;> rfl

/-- An `int` field whose variable is set to `s`, under any prefix: the value of
the literal is stored, or the call fails with a conversion error and the field
is left alone. -/
theorem setDefault_int_literal (H : Host) (env : Env) (field : StructField) (pfx : String)
    (old : Int) (s : String) (hsize : H.IntSize = 32 ∨ H.IntSize = 64)
    (hflag : field.flagTag.getD "" ≠ "-")
    (htag : (envOptsOf H field (flagNameOf H field pfx)).envTag ≠ "-")
    (hkey : env (envOptsOf H field (flagNameOf H field pfx)).envName = some s) :
    ∃ kind, setDefault H env field (.scalar (.int old)) pfx =
      match intLiteral H.IntSize s with
      | some v => (.scalar (.int v), .ok)
      | none => (.scalar (.int old),
          .err (.conversion (.num ⟨"Atoi", s, kind⟩)
            (envOptsOf H field (flagNameOf H field pfx)).envName s)) := by
  obtain ⟨kind, h⟩ := Atoi_eq_intLiteral H.IntSize s hsize
  refine ⟨kind, ?_⟩
  rw [setDefault, if_neg hflag]
  unfold setLeaf
  cases hl : intLiteral H.IntSize s with
  | none =>
    rw [hl] at h
    simp [htag, lookupEnv, hkey, Value.interface, h]
  | some v =>
    rw [hl] at h
    simp [htag, lookupEnv, hkey, Value.interface, h, Value.typeString, Scalar.typeString]

/-- C12: an `int` field whose environment key is set to the raw value `s` is
accepted by `ReadDefaults` if and only if `s` is a base-10 integer literal (an
optional sign followed by one or more decimal digits) whose value fits the native
`int`, and then holds that value; otherwise `ReadDefaults` fails with the
conversion error of `lookupEnv`, which carries the key and the raw value, and the
field keeps its value. -/
theorem int_field_literal (H : Host) (env : Env) (field : StructField) (pre post : Fields)
    (old : Int) (s : String) (hsize : H.IntSize = 32 ∨ H.IntSize = 64)
    (hx : field.exported = true) (hflag : field.flagTag.getD "" ≠ "-")
    (htag : (envOptsOf H field (flagNameOf H field "")).envTag ≠ "-")
    (hkey : env (envOptsOf H field (flagNameOf H field "")).envName = some s)
    (hpre : (reflectStruct H env pre "").2 = .ok) :
    ∃ kind, ReadDefaults H env (.ptrStruct (pre ++ (field, .scalar (.int old)) :: post)) =
      match intLiteral H.IntSize s with
      | some v =>
        (.ptrStruct ((reflectStruct H env pre "").1 ++
          (field, .scalar (.int v)) :: (reflectStruct H env post "").1),
          (reflectStruct H env post "").2)
      | none =>
        (.ptrStruct ((reflectStruct H env pre "").1 ++ (field, .scalar (.int old)) :: post),
          .err (.conversion (.num ⟨"Atoi", s, kind⟩)
            (envOptsOf H field (flagNameOf H field "")).envName s)) := by
  obtain ⟨kind, h⟩ := setDefault_int_literal H env field "" old s hsize hflag htag hkey
  refine ⟨kind, ?_⟩
  cases hl : intLiteral H.IntSize s with
  | none =>
    rw [hl] at h
    have hne : (setDefault H env field (.scalar (.int old)) "").2 ≠ .ok := by rw [h]; simp
    rw [ReadDefaults_of_field_fail H env field _ pre post hx hne hpre, h]
  | some v =>
    rw [hl] at h
    rw [ReadDefaults_of_field_ok H env field _ _ pre post hx h hpre]

/-- An `int` field `Port` holding 80: with `PORT=12a` the call fails with a
conversion error that carries `PORT` and `12a` and the field stays at 80. -/
theorem int_field_literal_witness :
    setenv emptyEnv "PORT" "12a" "PORT" = some "12a" ∧
      ∃ kind, ReadDefaults host64 (setenv emptyEnv "PORT" "12a")
          (.ptrStruct [(plainField "Port", .scalar (.int 80))]) =
        (.ptrStruct [(plainField "Port", .scalar (.int 80))],
          .err (.conversion (.num ⟨"Atoi", "12a", kind⟩) "PORT" "12a")) :=
  ⟨by decide, int_field_literal host64 (setenv emptyEnv "PORT" "12a") (plainField "Port") [] []
    80 "12a" (Or.inr rfl) rfl (by decide) (by decide) (by decide) rfl⟩

/-! ## The options of the env tag -/

/-- C14, what the code does: the loop over the components of the env tag starts
at the key name (defs.go:136), so the field is required if and only if the tag
has at least two components and any of them, the first included, is "required".
The tag `env:"required,x"` names the key `required` and does make the field
required: an empty string field so tagged is refused. The tag `env:"required"`
names the key and does not make the field required. -/
theorem required_option_scans_key (H : Host) :
    (∀ (field : StructField) (flagName : String),
      (envOptsOf H field flagName).envRequired = true ↔
        1 < (Split (field.envTag.getD "")).length ∧
          "required" ∈ Split (field.envTag.getD "")) ∧
      envOptsOf H (envField "F" "required,x") "f" = ⟨"required", "required", true⟩ ∧
      envOptsOf H (envField "F" "required") "f" = ⟨"required", "required", false⟩ ∧
      (ReadDefaults H emptyEnv
        (.ptrStruct [(envField "F" "required,x", .scalar (.string ""))])).2 =
          .err (.required "required") ∧
      (ReadDefaults H emptyEnv
        (.ptrStruct [(envField "F" "required", .scalar (.string ""))])).2 = .ok := by
  have h2 : Split "required,x" = ["required", "x"] := by decide
  have h1 : Split "required" = ["required"] := by decide
  have ho2 : envOptsOf H (envField "F" "required,x") (flagNameOf H (envField "F" "required,x") "")
      = ⟨"required", "required", true⟩ := by
    simp [envOptsOf, envField, h2]
  have ho1 : envOptsOf H (envField "F" "required") (flagNameOf H (envField "F" "required") "")
      = ⟨"required", "required", false⟩ := by
    simp [envOptsOf, envField, h1]
  refine ⟨?_, by simp [envOptsOf, envField, h2], by simp [envOptsOf, envField, h1], ?_, ?_⟩
  · intro field flagName
    unfold envOptsOf
    simp only []
    split
    · next hlen =>
      simp only [List.any_eq_true, beq_iff_eq]
      constructor
      · rintro ⟨x, hx, rfl⟩; exact ⟨hlen, hx⟩
      · rintro ⟨_, hx⟩; exact ⟨_, hx, rfl⟩
    · next hlen => simp [hlen]
  · have hs : setDefault H emptyEnv (envField "F" "required,x") (.scalar (.string "")) "" =
        (.scalar (.string ""), .err (.required "required")) := by
      rw [setDefault, if_neg (by decide)]
      unfold setLeaf
      rw [ho2]
      simp [lookupEnv, emptyEnv, Value.interface, Value.typeString, Scalar.typeString]
    have hne : (setDefault H emptyEnv (envField "F" "required,x")
        (.scalar (.string "")) "").2 ≠ .ok := by rw [hs]; simp
    have hr := ReadDefaults_of_field_fail H emptyEnv _ _ [] [] rfl hne rfl
    rw [hs] at hr
    exact congrArg Prod.snd hr
  · have hs : setDefault H emptyEnv (envField "F" "required") (.scalar (.string "")) "" =
        (.scalar (.string ""), .ok) := by
      rw [setDefault, if_neg (by decide)]
      unfold setLeaf
      rw [ho1]
      simp [lookupEnv, emptyEnv, Value.interface, Value.typeString, Scalar.typeString]
    exact congrArg Prod.snd (ReadDefaults_of_field_ok H emptyEnv _ _ _ [] [] rfl hs rfl)

/-- The locals of `setDefault` for an env tag whose first component is empty:
the key is the empty string. -/
theorem envOptsOf_empty_key (H : Host) (field : StructField) (flagName opts : String)
    (htag : field.envTag = some ("," ++ opts)) :
    (envOptsOf H field flagName).envTag = "" ∧ (envOptsOf H field flagName).envName = "" := by
  have hdata : ("," ++ opts).data = [] ++ ',' :: opts.data := by
    rw [String.data_append]; rfl
  have hsplit : Split ("," ++ opts) = "" :: (splitChars ',' opts.data).map String.mk := by
    rw [Split, hdata, splitChars_append_sep ',' _ [] (by simp)]
    rfl
  have hlen : 0 < (splitChars ',' opts.data).length :=
    List.length_pos.2 (splitChars_ne_nil _ _)
  simp [envOptsOf, htag, hsplit, hlen]

/-- C19: for a leaf field whose env tag has options but an empty first component
(such as `env:",required"`) the key that is looked up is the empty string, not
the upper-snake key derived from the name of the field: setting the derived key
in the environment changes nothing in what `setDefault` does on the field,
whereas the same field without env tag, here a string, is populated from the
derived key. -/
theorem empty_key_component (H : Host) (env : Env) (field : StructField) (fValue : Value)
    (pfx opts value old : String) (htag : field.envTag = some ("," ++ opts))
    (hleaf : fValue.isLeaf = true) (hflag : field.flagTag.getD "" ≠ "-")
    (hkey : H.ToScreamingSnake (flagNameOf H field pfx) ≠ "") :
    (envOptsOf H field (flagNameOf H field pfx)).envName = "" ∧
      setDefault H (setenv env (H.ToScreamingSnake (flagNameOf H field pfx)) value)
        field fValue pfx = setDefault H env field fValue pfx ∧
      (envOptsOf H ⟨field.Name, field.flagTag, none, field.exported⟩
        (flagNameOf H field pfx)).envName = H.ToScreamingSnake (flagNameOf H field pfx) ∧
      setDefault H (setenv env (H.ToScreamingSnake (flagNameOf H field pfx)) value)
        ⟨field.Name, field.flagTag, none, field.exported⟩ (.scalar (.string old)) pfx =
          (.scalar (.string value), .ok) := by
  obtain ⟨ht, hn⟩ := envOptsOf_empty_key H field (flagNameOf H field pfx) opts htag
  have hsame : setenv env (H.ToScreamingSnake (flagNameOf H field pfx)) value
      (envOptsOf H field (flagNameOf H field pfx)).envName =
      env (envOptsOf H field (flagNameOf H field pfx)).envName := by
    rw [hn]
    simp only [setenv]
    rw [if_neg (fun h => hkey h.symm)]
  have hopts := envOptsOf_untagged H ⟨field.Name, field.flagTag, none, field.exported⟩
    (flagNameOf H field pfx) rfl
  refine ⟨hn, ?_, by rw [hopts], ?_⟩
  · rcases Value.isLeaf_cases fValue hleaf with ⟨s, rfl⟩ | ⟨typ, dyn, rfl⟩
    · rw [setDefault, setDefault, if_neg hflag, if_neg hflag]
      exact setLeaf_congr H _ env field _ _ hsame
    · rw [setDefault, setDefault, if_neg hflag, if_neg hflag]
      exact setLeaf_congr H _ env field _ _ hsame
  · have hfn : flagNameOf H ⟨field.Name, field.flagTag, none, field.exported⟩ pfx =
        flagNameOf H field pfx := rfl
    rw [setDefault, if_neg hflag, hfn]
    unfold setLeaf
    rw [hopts]
    simp [lookupEnv, setenv, Value.interface, Value.typeString, Scalar.typeString]

/-- The field `Need` tagged `env:",required"`: with `NEED=x` in the environment
`ReadDefaults` does what it does with no variable set, it refuses the empty
field; without the env tag the field is set to `x`. -/
theorem empty_key_component_witness :
    ToScreamingSnake (flagNameOf host64 (envField "Need" ",required") "") = "NEED" ∧
      ReadDefaults host64 (setenv emptyEnv "NEED" "x")
          (.ptrStruct [(envField "Need" ",required", .scalar (.string ""))]) =
        (.ptrStruct [(envField "Need" ",required", .scalar (.string ""))],
          .err (.required "")) ∧
      setDefault host64 (setenv emptyEnv "NEED" "x") (envField "Need" ",required")
          (.scalar (.string "")) "" =
        setDefault host64 emptyEnv (envField "Need" ",required") (.scalar (.string "")) "" ∧
      setDefault host64 (setenv emptyEnv "NEED" "x") (plainField "Need")
          (.scalar (.string "")) "" = (.scalar (.string "x"), .ok) :=
  have h := empty_key_component host64 emptyEnv (envField "Need" ",required")
    (.scalar (.string "")) "" "required" "x" "" rfl rfl (by decide) (by decide)
  ⟨by decide, rfl, h.2.1, h.2.2.2⟩

/-! ## The empty flag tag -/

/-- Going on below a nested struct: the path continues in its fields, under the
prefix `setDefault` hands to them. -/
theorem fieldAt_append (H : Host) (rest : List Nat) (hrest : rest ≠ []) :
    ∀ (p : List Nat) (fs : Fields) (pfx : String) (field : StructField) (gs : Fields)
      (q : String),
      (fieldAt H fs pfx p = some (field, .struct gs, q) ∨
        fieldAt H fs pfx p = some (field, .ptrStruct gs, q)) →
      fieldAt H fs pfx (p ++ rest) = fieldAt H gs (childPfx H field q) rest := by
  obtain ⟨j, r, rfl⟩ : ∃ j r, rest = j :: r := by
    cases rest with
    | nil => exact absurd rfl hrest
    | cons j r => exact ⟨j, r, rfl⟩
  intro p
  induction p with
  | nil => intro fs pfx field gs q h; simp [fieldAt] at h
  | cons i p ih =>
    intro fs pfx field gs q h
    cases p with
    | nil =>
      simp only [fieldAt, Option.map_eq_some', Prod.mk.injEq] at h
      rcases h with ⟨⟨g, w⟩, hg, h1, h2, h3⟩ | ⟨⟨g, w⟩, hg, h1, h2, h3⟩
      · simp only at h1 h2; subst h1 h2 h3
        simp [fieldAt, hg]
      · simp only at h1 h2; subst h1 h2 h3
        simp [fieldAt, hg]
    | cons k p =>
      rw [fieldAt] at h
      rw [List.cons_append, List.cons_append, fieldAt]
      split at h
      · next g hs hg => exact ih hs _ field gs q h
      · next g hs hg => exact ih hs _ field gs q h
      · simp at h

/-- C15, the claim as stated fails: below `Outer`, tagged `flag:""`, the leaf
`Leaf` of the nested struct `Inner` is not a direct field; it is reached with the
prefix `inner-` and its key is `INNER_LEAF`, not the key `LEAF` it would have as a
field of the top-level struct: with `LEAF=5` set it keeps its value, whereas a
top-level `Leaf` is set to 5. -/
theorem empty_flag_counterexample :
    fieldAt host64 (outerInnerLeaf 3) "" [0, 0, 0] =
        some (plainField "Leaf", .scalar (.int 3), "inner-") ∧
      (envOptsOf host64 (plainField "Leaf")
        (flagNameOf host64 (plainField "Leaf") "inner-")).envName = "INNER_LEAF" ∧
      ReadDefaults host64 (setenv emptyEnv "LEAF" "5") (.ptrStruct (outerInnerLeaf 3)) =
        (.ptrStruct (outerInnerLeaf 3), .ok) ∧
      ReadDefaults host64 (setenv emptyEnv "LEAF" "5")
          (.ptrStruct [(plainField "Leaf", .scalar (.int 3))]) =
        (.ptrStruct [(plainField "Leaf", .scalar (.int 5))], .ok) :=
  ⟨rfl, by decide, rfl, rfl⟩

/-- C15, amended: a nested struct, or non-nil pointer to struct, that carries the
empty flag tag `flag:""` hands the empty prefix to its fields, however deep it
sits: `setDefault` walks its fields as `ReadDefaults` walks those of a top-level
struct, so each of its direct leaves derives exactly the flag name and key it
would derive as a field of the top-level struct, and every deeper descendant
those it would derive if the nested struct were the top-level one. Without flag
tag the child prefix is hyphenate(prefix) + hyphenate(fieldName) + "-". -/
theorem empty_flag_resets (H : Host) (env : Env) (fs : Fields) (p rest : List Nat)
    (field : StructField) (gs : Fields) (q : String)
    (hat : fieldAt H fs "" p = some (field, .struct gs, q) ∨
      fieldAt H fs "" p = some (field, .ptrStruct gs, q))
    (hflag : field.flagTag = some "") (hrest : rest ≠ []) :
    childPfx H field q = "" ∧
      fieldAt H fs "" (p ++ rest) = fieldAt H gs "" rest ∧
      setDefault H env field (.struct gs) q =
        (.struct (reflectStruct H env gs "").1, wrapOutcome field (reflectStruct H env gs "").2) ∧
      setDefault H env field (.ptrStruct gs) q =
        (.ptrStruct (reflectStruct H env gs "").1,
          wrapOutcome field (reflectStruct H env gs "").2) ∧
      ReadDefaults H env (.ptrStruct gs) =
        (.ptrStruct (reflectStruct H env gs "").1, (reflectStruct H env gs "").2) ∧
      ∀ (name : String) (envTag : Option String) (x : Bool) (pfx : String),
        childPfx H ⟨name, none, envTag, x⟩ pfx = H.ToKebab pfx ++ H.ToKebab name ++ "-" := by
  have hc : childPfx H field q = "" := by simp [childPfx, hflag]
  refine ⟨hc, ?_, ?_, ?_, rfl, ?_⟩
  · rw [fieldAt_append H rest hrest p fs "" field gs q hat, hc]
  · rw [setDefault, if_neg (by simp [hflag]), hc]
  · rw [setDefault, if_neg (by simp [hflag]), hc]
  · intro name envTag x pfx
    simp [childPfx, flagNameOf]

/-- The struct `Db`, tagged `flag:""` inside `App`: its field `Host` is reached
with the empty prefix and is populated from the key `HOST`. -/
theorem empty_flag_resets_witness :
    fieldAt host64 (appDbHost "") "" [0, 0] =
        some (⟨"Db", some "", none, true⟩,
          .struct [(plainField "Host", .scalar (.string ""))], "app-") ∧
      fieldAt host64 (appDbHost "") "" ([0, 0] ++ [0]) =
        some (plainField "Host", .scalar (.string ""), "") ∧
      ReadDefaults host64 (setenv emptyEnv "HOST" "h") (.ptrStruct (appDbHost "")) =
        (.ptrStruct (appDbHost "h"), .ok) :=
  have h := empty_flag_resets host64 emptyEnv (appDbHost "") [0, 0] [0]
    ⟨"Db", some "", none, true⟩ [(plainField "Host", .scalar (.string ""))] "app-"
    (Or.inl rfl) rfl (by decide)
  ⟨rfl, h.2.1, rfl⟩

/-! ## Unexported fields -/

/-- After the walk an unexported field holds what it held. -/
theorem reflectStruct_getElem?_unexported (H : Host) (env : Env) (pfx : String) :
    ∀ (fs : Fields) (i : Nat) (field : StructField) (fValue : Value),
      fs[i]? = some (field, fValue) → field.exported = false →
      (reflectStruct H env fs pfx).1[i]? = some (field, fValue) := by
  intro fs
  induction fs with
  | nil => intro i field fValue h; simp at h
  | cons x rest ih =>
    obtain ⟨g, w⟩ := x
    intro i field fValue h hx
    cases i with
    | zero =>
      simp only [List.getElem?_cons_zero, Option.some.injEq, Prod.mk.injEq] at h
      obtain ⟨rfl, rfl⟩ := h
      rw [reflectStruct_cons_unexported H env g w rest pfx hx]
      simp
    | succ i =>
      simp only [List.getElem?_cons_succ] at h
      cases hg : g.exported with
      | false =>
        rw [reflectStruct_cons_unexported H env g w rest pfx hg]
        simpa using ih i field fValue h hx
      | true =>
        by_cases hs : (setDefault H env g w pfx).2 = .ok
        · have hs' : setDefault H env g w pfx = ((setDefault H env g w pfx).1, .ok) := by
            rw [← hs]
          rw [reflectStruct_cons_ok H env g w _ rest pfx hg hs']
          simpa using ih i field fValue h hx
        · rw [reflectStruct_cons_fail H env g w rest pfx hg hs]
          simpa using h

/-- The same along a path into nested structs. -/
theorem fieldAt_reflectStruct_unexported (H : Host) (env : Env) :
    ∀ (path : List Nat) (fs : Fields) (pfx : String) (field : StructField) (fValue : Value)
      (q : String), fieldAt H fs pfx path = some (field, fValue, q) →
      field.exported = false →
      fieldAt H (reflectStruct H env fs pfx).1 pfx path = some (field, fValue, q) := by
  intro path
  induction path with
  | nil => intro fs pfx field fValue q h; simp [fieldAt] at h
  | cons i path ih =>
    intro fs pfx field fValue q h hx
    cases path with
    | nil =>
      simp only [fieldAt, Option.map_eq_some'] at h
      obtain ⟨⟨g, w⟩, hg, hgw⟩ := h
      simp only [Prod.mk.injEq] at hgw
      obtain ⟨rfl, rfl, rfl⟩ := hgw
      simp [fieldAt, reflectStruct_getElem?_unexported H env pfx fs i g w hg hx]
    | cons j path =>
      rw [fieldAt] at h
      split at h
      · next g gs hg =>
        rcases reflectStruct_getElem? H env pfx fs i g (.struct gs) hg with h1 | h1
        · rw [fieldAt, h1]; exact h
        · rcases setDefault_struct H env g gs pfx with h2 | h2
          · rw [fieldAt, h1, h2]; exact h
          · rw [fieldAt, h1, h2]; exact ih gs _ field fValue q h hx
      · next g gs hg =>
        rcases reflectStruct_getElem? H env pfx fs i g (.ptrStruct gs) hg with h1 | h1
        · rw [fieldAt, h1]; exact h
        · rcases setDefault_ptrStruct H env g gs pfx with h2 | h2
          · rw [fieldAt, h1, h2]; exact h
          · rw [fieldAt, h1, h2]; exact ih gs _ field fValue q h hx
      · exact absurd h (by simp)

/-- Taking an unexported field out of a struct changes neither what the walk
does to the other fields nor what it returns. -/
theorem reflectStruct_insert_unexported (H : Host) (env : Env) (field : StructField)
    (fValue : Value) (pre post : Fields) (pfx : String) (hx : field.exported = false) :
    ∃ pre' post' out, pre'.length = pre.length ∧
      reflectStruct H env (pre ++ post) pfx = (pre' ++ post', out) ∧
      reflectStruct H env (pre ++ (field, fValue) :: post) pfx =
        (pre' ++ (field, fValue) :: post', out) := by
  rw [reflectStruct_append, reflectStruct_append,
    reflectStruct_cons_unexported H env field fValue post pfx hx]
  by_cases hpre : (reflectStruct H env pre pfx).2 = .ok
  · exact ⟨_, _, _, reflectStruct_length H env pfx pre, by rw [if_pos hpre],
      by rw [if_pos hpre]⟩
  · exact ⟨_, _, _, reflectStruct_length H env pfx pre, by rw [if_neg hpre],
      by rw [if_neg hpre]⟩

/-- C17: a field that is not exported is silently skipped. Wherever it sits, it
holds after `ReadDefaults` the value it held before, in every environment; and
`ReadDefaults` (as well as the walk over a nested struct, under any prefix) on a
struct that contains it does to the other fields, and returns, exactly what it
does and returns for the struct without that field, whatever the type and the
tags of the field: it never makes the call fail. -/
theorem unexported_skipped (H : Host) (env : Env) (fs : Fields) (path : List Nat)
    (field : StructField) (fValue : Value) (q : String) (pre post : Fields) (pfx : String)
    (hat : fieldAt H fs "" path = some (field, fValue, q))
    (hx : field.exported = false) :
    (∃ fs', (ReadDefaults H env (.ptrStruct fs)).1 = .ptrStruct fs' ∧
        fieldAt H fs' "" path = some (field, fValue, q)) ∧
      (∃ pre' post' out, pre'.length = pre.length ∧
        ReadDefaults H env (.ptrStruct (pre ++ post)) = (.ptrStruct (pre' ++ post'), out) ∧
        ReadDefaults H env (.ptrStruct (pre ++ (field, fValue) :: post)) =
          (.ptrStruct (pre' ++ (field, fValue) :: post'), out)) ∧
      ∃ pre' post' out, pre'.length = pre.length ∧
        reflectStruct H env (pre ++ post) pfx = (pre' ++ post', out) ∧
        reflectStruct H env (pre ++ (field, fValue) :: post) pfx =
          (pre' ++ (field, fValue) :: post', out) := by
  refine ⟨⟨(reflectStruct H env fs "").1, rfl,
    fieldAt_reflectStruct_unexported H env path fs "" field fValue q hat hx⟩, ?_,
    reflectStruct_insert_unexported H env field fValue pre post pfx hx⟩
  obtain ⟨pre', post', out, hlen, h1, h2⟩ :=
    reflectStruct_insert_unexported H env field fValue pre post "" hx
  refine ⟨pre', post', out, hlen, ?_, ?_⟩
  · simp only [ReadDefaults, readDefaults, h1]
  · simp only [ReadDefaults, readDefaults, h2]

/-- An unexported field of type `uint`, tagged required, with its key set: the
call succeeds and the field is untouched. -/
theorem unexported_skipped_witness :
    fieldAt host64 [(⟨"secret", none, some "S,required", false⟩, .scalar (.other "uint" "0"))]
        "" [0] =
        some (⟨"secret", none, some "S,required", false⟩, .scalar (.other "uint" "0"), "") ∧
      ReadDefaults host64 (setenv emptyEnv "S" "1")
          (.ptrStruct [(⟨"secret", none, some "S,required", false⟩,
            .scalar (.other "uint" "0"))]) =
        (.ptrStruct [(⟨"secret", none, some "S,required", false⟩,
          .scalar (.other "uint" "0"))], .ok) ∧
      ∃ fs', (ReadDefaults host64 (setenv emptyEnv "S" "1")
          (.ptrStruct [(⟨"secret", none, some "S,required", false⟩,
            .scalar (.other "uint" "0"))])).1 = .ptrStruct fs' ∧
        fieldAt host64 fs' "" [0] =
          some (⟨"secret", none, some "S,required", false⟩, .scalar (.other "uint" "0"), "") :=
  ⟨rfl, rfl, (unexported_skipped host64 (setenv emptyEnv "S" "1")
    [(⟨"secret", none, some "S,required", false⟩, .scalar (.other "uint" "0"))] [0]
    ⟨"secret", none, some "S,required", false⟩ (.scalar (.other "uint" "0")) "" [] [] ""
    rfl rfl).1⟩

/-! ## Idempotence -/

/-- What `lookupEnv` returns keeps the dynamic type of the default value, so
looking up again with it as the default gives it back. -/
theorem lookupEnv_idem (H : Host) (env : Env) (envNm : String) (s s' : Scalar)
    (h : lookupEnv H env envNm (some s) = .ok (some s')) :
    lookupEnv H env envNm (some s') = .ok (some s') := by
  unfold lookupEnv at h ⊢
  cases hk : env envNm with
  | none =>
    simp only [hk, Except.ok.injEq, Option.some.injEq] at h
    subst h; rfl
  | some res =>
    simp only [hk] at h ⊢
    cases s with
    | int n =>
      cases ha : Atoi H.IntSize res with
      | error e => simp [ha] at h
      | ok v => simp [ha] at h; subst h; simp [ha]
    | int64 n =>
      cases ha : ParseInt res 64 with
      | error e => simp [ha] at h
      | ok v => simp [ha] at h; subst h; simp [ha]
    | float64 n =>
      cases ha : H.ParseFloat res with
      | error e => simp [ha] at h
      | ok v => simp [ha] at h; subst h; simp [ha]
    | bool b =>
      by_cases hb : ToUpper res = "TRUE" ∨ ToUpper res = "1"
      · simp [hb] at h; subst h; simp [hb]
      · simp [hb] at h; subst h; simp [hb]
    | string v => simp at h; subst h; simp
    | duration n =>
      cases ha : H.ParseDuration res with
      | error e => simp [ha] at h
      | ok v => simp [ha] at h; subst h; simp [ha]
    | other typ repr => simp at h

/-- A field of interface type is never accepted. -/
theorem setLeaf_iface_ne_ok (H : Host) (env : Env) (field : StructField) (typ : String)
    (dyn : Option Scalar) (flagName : String) :
    (setLeaf H env field (.iface typ dyn) flagName).2 ≠ .ok := by
  unfold setLeaf
  simp only []
  repeat' split
  all_goals simp

/-- A leaf of a type the type switches do not know is never accepted. -/
theorem setLeaf_other_ne_ok (H : Host) (env : Env) (field : StructField) (typ repr : String)
    (flagName : String) :
    (setLeaf H env field (.scalar (.other typ repr)) flagName).2 ≠ .ok := by
  unfold setLeaf
  simp only [Value.typeString, Scalar.typeString]
  repeat' split
  all_goals simp

/-- The leaf part of `setDefault` accepts again, unchanged, what it stored. -/
theorem setLeaf_idem (H : Host) (env : Env) (field : StructField) (s : Scalar)
    (flagName : String) (h : (setLeaf H env field (.scalar s) flagName).2 = .ok) :
    setLeaf H env field (setLeaf H env field (.scalar s) flagName).1 flagName =
      ((setLeaf H env field (.scalar s) flagName).1, .ok) := by
  have h0 := h
  unfold setLeaf at h ⊢
  simp only [] at h ⊢
  generalize envOptsOf H field flagName = o at h ⊢
  by_cases htag : o.envTag = "-"
  · cases s with
    | string v =>
      by_cases hr : o.envRequired = true ∧ v = "" <;>
        simp [htag, hr, Value.interface, Value.typeString, Scalar.typeString] at h ⊢
    | other typ repr => exact absurd h0 (setLeaf_other_ne_ok H env field typ repr flagName)
    | _ => simp [htag, Value.interface, Value.typeString, Scalar.typeString] at h ⊢
  · cases hk : env o.envName with
    | none =>
      cases s with
      | string v =>
        by_cases hr : o.envRequired = true ∧ v = "" <;>
          simp [htag, hk, hr, lookupEnv, Value.interface, Value.typeString,
            Scalar.typeString] at h ⊢
      | other typ repr => exact absurd h0 (setLeaf_other_ne_ok H env field typ repr flagName)
      | _ =>
        simp [htag, hk, lookupEnv, Value.interface, Value.typeString, Scalar.typeString] at h ⊢
    | some res =>
      cases s with
      | int n =>
        cases ha : Atoi H.IntSize res <;>
          simp [htag, hk, ha, lookupEnv, Value.interface, Value.typeString,
            Scalar.typeString] at h ⊢
      | int64 n =>
        cases ha : ParseInt res 64 <;>
          simp [htag, hk, ha, lookupEnv, Value.interface, Value.typeString,
            Scalar.typeString] at h ⊢
      | float64 n =>
        cases ha : H.ParseFloat res <;>
          simp [htag, hk, ha, lookupEnv, Value.interface, Value.typeString,
            Scalar.typeString] at h ⊢
      | bool b =>
        by_cases hb : ToUpper res = "TRUE" ∨ ToUpper res = "1" <;>
          simp [htag, hk, hb, lookupEnv, Value.interface, Value.typeString,
            Scalar.typeString] at h ⊢
      | string v =>
        by_cases hr : o.envRequired = true ∧ res = "" <;>
          simp [htag, hk, hr, lookupEnv, Value.interface, Value.typeString,
            Scalar.typeString] at h ⊢
      | duration n =>
        cases ha : H.ParseDuration res <;>
          simp [htag, hk, ha, lookupEnv, Value.interface, Value.typeString,
            Scalar.typeString] at h ⊢
      | other typ repr =>
        simp [htag, hk, lookupEnv, Value.interface] at h

/-- Wrapping keeps success and failure apart. -/
theorem wrapOutcome_eq_ok (field : StructField) (out : Outcome) :
    wrapOutcome field out = .ok ↔ out = .ok := by
  cases out <;> simp [wrapOutcome]

/-- The leaf part of `setDefault` leaves a scalar in a scalar field. -/
theorem setLeaf_scalar_fst (H : Host) (env : Env) (field : StructField) (s : Scalar)
    (flagName : String) :
    ∃ s', (setLeaf H env field (.scalar s) flagName).1 = .scalar s' := by
  unfold setLeaf
  simp only []
  repeat' split
  all_goals exact ⟨_, rfl⟩

mutual
/-- A field that `setDefault` accepted is accepted again and left as it is. -/
theorem setDefault_idem (H : Host) (env : Env) (field : StructField) :
    ∀ (fValue : Value) (pfx : String), (setDefault H env field fValue pfx).2 = .ok →
      setDefault H env field (setDefault H env field fValue pfx).1 pfx =
        ((setDefault H env field fValue pfx).1, .ok)
  | .scalar s, pfx, h => by
    rw [setDefault] at h ⊢
    split
    · next hf => rw [setDefault, if_pos hf]
    · next hf =>
      rw [if_neg hf] at h
      have hi := setLeaf_idem H env field s _ h
      obtain ⟨s', hv⟩ := setLeaf_scalar_fst H env field s (flagNameOf H field pfx)
      rw [hv] at hi ⊢
      rw [setDefault, if_neg hf]
      exact hi
  | .iface typ dyn, pfx, h => by
    rw [setDefault] at h ⊢
    split
    · next hf => rw [setDefault, if_pos hf]
    · next hf =>
      rw [if_neg hf] at h
      exact absurd h (setLeaf_iface_ne_ok H env field typ dyn _)
  | .struct fs, pfx, h => by
    rw [setDefault] at h ⊢
    split
    · next hf => rw [setDefault, if_pos hf]
    · next hf =>
      rw [if_neg hf] at h
      have hr := (wrapOutcome_eq_ok field _).1 h
      have ih := reflectStruct_idem H env fs (childPfx H field pfx) hr
      simp only []
      rw [setDefault, if_neg hf, ih]
      rfl
  | .ptrNil, pfx, _ => by simp [setDefault]
  | .ptrStruct fs, pfx, h => by
    rw [setDefault] at h ⊢
    split
    · next hf => rw [setDefault, if_pos hf]
    · next hf =>
      rw [if_neg hf] at h
      have hr := (wrapOutcome_eq_ok field _).1 h
      have ih := reflectStruct_idem H env fs (childPfx H field pfx) hr
      simp only []
      rw [setDefault, if_neg hf, ih]
      rfl
  | .ptrOther, pfx, _ => by simp [setDefault]
/-- A struct that the walk accepted is accepted again and left as it is. -/
theorem reflectStruct_idem (H : Host) (env : Env) :
    ∀ (fs : Fields) (pfx : String), (reflectStruct H env fs pfx).2 = .ok →
      reflectStruct H env (reflectStruct H env fs pfx).1 pfx =
        ((reflectStruct H env fs pfx).1, .ok)
  | [], pfx, _ => by simp [reflectStruct]
  | (field, fValue) :: rest, pfx, h => by
    cases hx : field.exported with
    | false =>
      rw [reflectStruct_cons_unexported H env field fValue rest pfx hx] at h ⊢
      have ih := reflectStruct_idem H env rest pfx h
      rw [reflectStruct_cons_unexported H env field fValue _ pfx hx, ih]
    | true =>
      by_cases hs : (setDefault H env field fValue pfx).2 = .ok
      · have hs' : setDefault H env field fValue pfx =
            ((setDefault H env field fValue pfx).1, .ok) := by rw [← hs]
        rw [reflectStruct_cons_ok H env field fValue _ rest pfx hx hs'] at h ⊢
        have ih := reflectStruct_idem H env rest pfx h
        have iv := setDefault_idem H env field fValue pfx hs
        rw [reflectStruct_cons_ok H env field _ _ _ pfx hx iv, ih]
      · rw [reflectStruct_cons_fail H env field fValue rest pfx hx hs] at h
        exact absurd h hs
end

/-- C18: idempotence. For every argument `s` and environment, if `ReadDefaults`
on `s` succeeds and yields `s'`, then `ReadDefaults` on `s'` in the same
environment succeeds too and leaves `s'` unchanged. -/
theorem ReadDefaults_idempotent (H : Host) (env : Env) (s s' : Arg)
    (h : ReadDefaults H env s = (s', .ok)) : ReadDefaults H env s' = (s', .ok) := by
  cases s with
  | ptrStruct fs =>
    simp only [ReadDefaults, readDefaults, Prod.mk.injEq] at h
    obtain ⟨h1, h2⟩ := h
    subst h1
    simp only [ReadDefaults, readDefaults]
    rw [reflectStruct_idem H env fs "" h2]
  | nilInterface => simp [ReadDefaults, readDefaults] at h
  | nonPointer v => simp [ReadDefaults, readDefaults] at h
  | nilPointer => simp [ReadDefaults, readDefaults] at h
  | ptrOther => simp [ReadDefaults, readDefaults] at h

/-- The second scenario of `TestOne` run twice: the first call sets `UID` to 50
and the second call leaves the struct as the first one left it. -/
theorem ReadDefaults_idempotent_witness :
    ReadDefaults host64 (setenv emptyEnv "UID" "50") (.ptrStruct (testData "field1" "" 0 "")) =
        (.ptrStruct (testData "field1" "" 50 ""), .ok) ∧
      ReadDefaults host64 (setenv emptyEnv "UID" "50")
          (.ptrStruct (testData "field1" "" 50 "")) =
        (.ptrStruct (testData "field1" "" 50 ""), .ok) :=
  ⟨rfl, ReadDefaults_idempotent host64 (setenv emptyEnv "UID" "50")
    (.ptrStruct (testData "field1" "" 0 "")) (.ptrStruct (testData "field1" "" 50 "")) rfl⟩

/-! ## Where a failing call stops -/

/-- A path into the tail of a struct. -/
theorem fieldAt_cons_succ (H : Host) (x : StructField × Value) (fs : Fields) (pfx : String)
    (i : Nat) (p : List Nat) :
    fieldAt H (x :: fs) pfx ((i + 1) :: p) = fieldAt H fs pfx (i :: p) := by
  cases p <;> simp [fieldAt]

/-- The nested structs on a path into the tail of a struct. -/
theorem ancestorsAt_cons_succ (x : StructField × Value) (fs : Fields) (i : Nat)
    (p : List Nat) : ancestorsAt (x :: fs) ((i + 1) :: p) = ancestorsAt fs (i :: p) := by
  cases p <;> simp [ancestorsAt]

/-- A path exists only when it is not empty. -/
theorem fieldAt_ne_nil (H : Host) (fs : Fields) (pfx : String) (p : List Nat)
    (x : StructField × Value × String) (h : fieldAt H fs pfx p = some x) :
    ∃ i p', p = i :: p' := by
  cases p with
  | nil => simp [fieldAt] at h
  | cons i p' => exact ⟨i, p', rfl⟩

/-- What comes after a path is not empty. -/
theorem pathAfter_ne_nil (p q : List Nat) (h : pathAfter p q = true) :
    ∃ j q', q = j :: q' := by
  cases q with
  | nil => cases p <;> simp [pathAfter] at h
  | cons j q' => exact ⟨j, q', rfl⟩

/-- The text of a wrapped error is the text of the error followed by the trail
of the wrapping fields. -/
theorem message_wrapErrors (quote : String → String) (e : Error) (names : List String) :
    (wrapErrors e names).message quote = e.message quote ++ failureTrail names := by
  induction names with
  | nil => simp [wrapErrors, failureTrail]
  | cons name names ih =>
    simp only [wrapErrors, failureTrail, Error.message, ih, String.append_assoc]

/-- A wrapped outcome is an error exactly when the inner one is. -/
theorem wrapOutcome_eq_err (field : StructField) (out : Outcome) (e : Error)
    (h : wrapOutcome field out = .err e) :
    ∃ e1, out = .err e1 ∧ e = .fieldFailure e1 field.Name := by
  cases out with
  | ok => simp [wrapOutcome] at h
  | err e1 =>
    simp only [wrapOutcome, Outcome.err.injEq] at h
    exact ⟨e1, rfl, h.symm⟩
  | panic m => simp [wrapOutcome] at h

/-- One step of the walk that ends in an error: the failing leaf is found in the
first field, or in the fields after it. Given what holds of the nested struct in
the first field and of the fields after it, the same holds of the struct. -/
theorem failure_step (H : Host) (env : Env) (g : StructField) (w : Value) (rest : Fields)
    (pfx : String) (e : Error)
    (h : (reflectStruct H env ((g, w) :: rest) pfx).2 = .err e)
    (relay : ∀ gs : Fields, (w = .struct gs ∨ w = .ptrStruct gs) →
      ∀ (pfx' : String) (e' : Error), (reflectStruct H env gs pfx').2 = .err e' →
      ∃ (p : List Nat) (f : StructField) (v : Value) (q : String) (e0 : Error),
        fieldAt H gs pfx' p = some (f, v, q) ∧ v.isLeaf = true ∧
        (setDefault H env f v q).2 = .err e0 ∧
        e' = wrapErrors e0 ((ancestorsAt gs p).map (fun a => a.Name)) ∧
        fieldAt H (reflectStruct H env gs pfx').1 pfx' p =
          some (f, (setDefault H env f v q).1, q) ∧
        ∀ p', pathAfter p p' = true →
          fieldAt H (reflectStruct H env gs pfx').1 pfx' p' = fieldAt H gs pfx' p')
    (ih : ∀ e' : Error, (reflectStruct H env rest pfx).2 = .err e' →
      ∃ (p : List Nat) (f : StructField) (v : Value) (q : String) (e0 : Error),
        fieldAt H rest pfx p = some (f, v, q) ∧ v.isLeaf = true ∧
        (setDefault H env f v q).2 = .err e0 ∧
        e' = wrapErrors e0 ((ancestorsAt rest p).map (fun a => a.Name)) ∧
        fieldAt H (reflectStruct H env rest pfx).1 pfx p =
          some (f, (setDefault H env f v q).1, q) ∧
        ∀ p', pathAfter p p' = true →
          fieldAt H (reflectStruct H env rest pfx).1 pfx p' = fieldAt H rest pfx p') :
    ∃ (p : List Nat) (f : StructField) (v : Value) (q : String) (e0 : Error),
      fieldAt H ((g, w) :: rest) pfx p = some (f, v, q) ∧ v.isLeaf = true ∧
      (setDefault H env f v q).2 = .err e0 ∧
      e = wrapErrors e0 ((ancestorsAt ((g, w) :: rest) p).map (fun a => a.Name)) ∧
      fieldAt H (reflectStruct H env ((g, w) :: rest) pfx).1 pfx p =
        some (f, (setDefault H env f v q).1, q) ∧
      ∀ p', pathAfter p p' = true →
        fieldAt H (reflectStruct H env ((g, w) :: rest) pfx).1 pfx p' = fieldAt H ((g, w) :: rest) pfx p' := by
  have tail : ∀ w' : Value, reflectStruct H env ((g, w) :: rest) pfx =
      ((g, w') :: (reflectStruct H env rest pfx).1, (reflectStruct H env rest pfx).2) →
      (∃ (p : List Nat) (f : StructField) (v : Value) (q : String) (e0 : Error),
          fieldAt H ((g, w) :: rest) pfx p = some (f, v, q) ∧ v.isLeaf = true ∧
          (setDefault H env f v q).2 = .err e0 ∧
          e = wrapErrors e0 ((ancestorsAt ((g, w) :: rest) p).map (fun a => a.Name)) ∧
          fieldAt H (reflectStruct H env ((g, w) :: rest) pfx).1 pfx p =
            some (f, (setDefault H env f v q).1, q) ∧
          ∀ p', pathAfter p p' = true →
            fieldAt H (reflectStruct H env ((g, w) :: rest) pfx).1 pfx p' = fieldAt H ((g, w) :: rest) pfx p') := by
    intro w' hw
    rw [hw] at h
    obtain ⟨p, f, v, q, e0, h1, h2, h3, h4, h5, h6⟩ := ih e h
    obtain ⟨i, p0, rfl⟩ := fieldAt_ne_nil H rest pfx p _ h1
    refine ⟨(i + 1) :: p0, f, v, q, e0, ?_, h2, h3, ?_, ?_, ?_⟩
    · rw [fieldAt_cons_succ]; exact h1
    · rw [ancestorsAt_cons_succ]; exact h4
    · rw [hw]; simp only []; rw [fieldAt_cons_succ]; exact h5
    · intro p' hp'
      obtain ⟨j, q', rfl⟩ := pathAfter_ne_nil _ _ hp'
      cases j with
      | zero => simp [pathAfter] at hp'
      | succ j =>
        rw [hw]; simp only []
        rw [fieldAt_cons_succ, fieldAt_cons_succ]
        apply h6
        simpa [pathAfter] using hp'
  cases hx : g.exported with
  | false => exact tail w (reflectStruct_cons_unexported H env g w rest pfx hx)
  | true =>
    by_cases hs : (setDefault H env g w pfx).2 = .ok
    · exact tail _ (reflectStruct_cons_ok H env g w _ rest pfx hx (by rw [← hs]))
    · have hfail := reflectStruct_cons_fail H env g w rest pfx hx hs
      rw [hfail] at h
      simp only [] at h
      have hafter0 : ∀ (w' : Value) (j : Nat) (q' : List Nat),
          fieldAt H ((g, w') :: rest) pfx ((j + 1) :: q') =
            fieldAt H ((g, w) :: rest) pfx ((j + 1) :: q') := by
        intro w' j q'
        rw [fieldAt_cons_succ, fieldAt_cons_succ]
      have leaf : w.isLeaf = true → (∃ (p : List Nat) (f : StructField) (v : Value) (q : String) (e0 : Error),
          fieldAt H ((g, w) :: rest) pfx p = some (f, v, q) ∧ v.isLeaf = true ∧
          (setDefault H env f v q).2 = .err e0 ∧
          e = wrapErrors e0 ((ancestorsAt ((g, w) :: rest) p).map (fun a => a.Name)) ∧
          fieldAt H (reflectStruct H env ((g, w) :: rest) pfx).1 pfx p =
            some (f, (setDefault H env f v q).1, q) ∧
          ∀ p', pathAfter p p' = true →
            fieldAt H (reflectStruct H env ((g, w) :: rest) pfx).1 pfx p' = fieldAt H ((g, w) :: rest) pfx p') := by
        intro hleaf
        refine ⟨[0], g, w, pfx, e, by simp [fieldAt], hleaf, h,
          by simp [ancestorsAt, wrapErrors], ?_, ?_⟩
        · rw [hfail]; simp [fieldAt]
        · intro p' hp'
          obtain ⟨j, q', rfl⟩ := pathAfter_ne_nil _ _ hp'
          cases j with
          | zero => simp [pathAfter] at hp'
          | succ j => rw [hfail]; exact hafter0 _ j q'
      have comp : ∀ gs : Fields, (w = .struct gs ∨ w = .ptrStruct gs) →
          ∀ e1 : Error, (reflectStruct H env gs (childPfx H g pfx)).2 = .err e1 →
          e = .fieldFailure e1 g.Name →
          (∀ (j : Nat) (p : List Nat),
            fieldAt H [(g, (setDefault H env g w pfx).1)] pfx (0 :: j :: p) =
              fieldAt H (reflectStruct H env gs (childPfx H g pfx)).1 (childPfx H g pfx)
                (j :: p)) →
          (∃ (p : List Nat) (f : StructField) (v : Value) (q : String) (e0 : Error),
          fieldAt H ((g, w) :: rest) pfx p = some (f, v, q) ∧ v.isLeaf = true ∧
          (setDefault H env f v q).2 = .err e0 ∧
          e = wrapErrors e0 ((ancestorsAt ((g, w) :: rest) p).map (fun a => a.Name)) ∧
          fieldAt H (reflectStruct H env ((g, w) :: rest) pfx).1 pfx p =
            some (f, (setDefault H env f v q).1, q) ∧
          ∀ p', pathAfter p p' = true →
            fieldAt H (reflectStruct H env ((g, w) :: rest) pfx).1 pfx p' = fieldAt H ((g, w) :: rest) pfx p') := by
        intro gs hw e1 hr he hval
        have hin : ∀ (tl : Fields) (j : Nat) (p : List Nat),
            fieldAt H ((g, w) :: tl) pfx (0 :: j :: p) =
              fieldAt H gs (childPfx H g pfx) (j :: p) := by
          intro tl j p
          rcases hw with rfl | rfl <;> simp [fieldAt]
        have hanc : ∀ (j : Nat) (p : List Nat),
            ancestorsAt ((g, w) :: rest) (0 :: j :: p) = g :: ancestorsAt gs (j :: p) := by
          intro j p
          rcases hw with rfl | rfl <;> simp [ancestorsAt]
        have hout : ∀ (j : Nat) (p : List Nat),
            fieldAt H ((g, (setDefault H env g w pfx).1) :: rest) pfx (0 :: j :: p) =
              fieldAt H (reflectStruct H env gs (childPfx H g pfx)).1 (childPfx H g pfx)
                (j :: p) := by
          intro j p
          rw [← hval j p]
          simp [fieldAt]
        obtain ⟨p, f, v, q, e0, h1, h2, h3, h4, h5, h6⟩ := relay gs hw _ e1 hr
        obtain ⟨i, p0, rfl⟩ := fieldAt_ne_nil H gs _ _ _ h1
        refine ⟨0 :: i :: p0, f, v, q, e0, ?_, h2, h3, ?_, ?_, ?_⟩
        · rw [hin]; exact h1
        · rw [he, h4, hanc]; simp [wrapErrors]
        · rw [hfail]; simp only []; rw [hout]; exact h5
        · intro p' hp'
          obtain ⟨j, q', rfl⟩ := pathAfter_ne_nil _ _ hp'
          cases j with
          | succ j => rw [hfail]; exact hafter0 _ j q'
          | zero =>
            have hq : pathAfter (i :: p0) q' = true := by simpa [pathAfter] using hp'
            obtain ⟨k, q'', rfl⟩ := pathAfter_ne_nil _ _ hq
            rw [hfail]; simp only []
            rw [hout, hin]
            exact h6 _ hq
      cases w with
      | scalar s => exact leaf rfl
      | iface typ dyn => exact leaf rfl
      | struct gs =>
        rw [setDefault] at h
        split at h
        · simp at h
        · next hf =>
          obtain ⟨e1, hr, he⟩ := wrapOutcome_eq_err g _ e h
          refine comp gs (Or.inl rfl) e1 hr he ?_
          intro j p
          rw [setDefault, if_neg hf]
          simp [fieldAt]
      | ptrStruct gs =>
        rw [setDefault] at h
        split at h
        · simp at h
        · next hf =>
          obtain ⟨e1, hr, he⟩ := wrapOutcome_eq_err g _ e h
          refine comp gs (Or.inr rfl) e1 hr he ?_
          intro j p
          rw [setDefault, if_neg hf]
          simp [fieldAt]
      | ptrNil => simp [setDefault] at h
      | ptrOther => simp [setDefault] at h

mutual
/-- The walk over the fields of a nested struct, when it ends in an error, stops
at a leaf: see `failure_anatomy`. -/
theorem failure_anatomy_nested (H : Host) (env : Env) :
    ∀ (w : Value) (gs : Fields), (w = .struct gs ∨ w = .ptrStruct gs) →
      ∀ (pfx : String) (e : Error), (reflectStruct H env gs pfx).2 = .err e →
      ∃ (p : List Nat) (f : StructField) (v : Value) (q : String) (e0 : Error),
        fieldAt H gs pfx p = some (f, v, q) ∧ v.isLeaf = true ∧
        (setDefault H env f v q).2 = .err e0 ∧
        e = wrapErrors e0 ((ancestorsAt gs p).map (fun a => a.Name)) ∧
        fieldAt H (reflectStruct H env gs pfx).1 pfx p =
          some (f, (setDefault H env f v q).1, q) ∧
        ∀ p', pathAfter p p' = true →
          fieldAt H (reflectStruct H env gs pfx).1 pfx p' = fieldAt H gs pfx p'
  | .struct hs, gs, hw, pfx, e, h => by
    have hgs : gs = hs := by
      rcases hw with hw | hw
      · injection hw with hw; exact hw.symm
      · exact absurd hw (by simp)
    subst hgs
    exact failure_anatomy H env gs pfx e h
  | .ptrStruct hs, gs, hw, pfx, e, h => by
    have hgs : gs = hs := by
      rcases hw with hw | hw
      · exact absurd hw (by simp)
      · injection hw with hw; exact hw.symm
    subst hgs
    exact failure_anatomy H env gs pfx e h
  | .scalar _, _, hw, _, _, _ => by rcases hw with hw | hw <;> exact absurd hw (by simp)
  | .iface _ _, _, hw, _, _, _ => by rcases hw with hw | hw <;> exact absurd hw (by simp)
  | .ptrNil, _, hw, _, _, _ => by rcases hw with hw | hw <;> exact absurd hw (by simp)
  | .ptrOther, _, hw, _, _, _ => by rcases hw with hw | hw <;> exact absurd hw (by simp)
/-- When the walk over a struct ends in an error `e`, there is a leaf, at a path
`p` and reached with the prefix `q`, on which `setDefault` fails with an error
`e0`; `e` is `e0` wrapped by the nested struct fields on the path; after the walk
the leaf holds what `setDefault` left in it, and every field that comes after it
in depth-first declaration order is what it was. -/
theorem failure_anatomy (H : Host) (env : Env) :
    ∀ (fs : Fields) (pfx : String) (e : Error), (reflectStruct H env fs pfx).2 = .err e →
      ∃ (p : List Nat) (f : StructField) (v : Value) (q : String) (e0 : Error),
        fieldAt H fs pfx p = some (f, v, q) ∧ v.isLeaf = true ∧
        (setDefault H env f v q).2 = .err e0 ∧
        e = wrapErrors e0 ((ancestorsAt fs p).map (fun a => a.Name)) ∧
        fieldAt H (reflectStruct H env fs pfx).1 pfx p =
          some (f, (setDefault H env f v q).1, q) ∧
        ∀ p', pathAfter p p' = true →
          fieldAt H (reflectStruct H env fs pfx).1 pfx p' = fieldAt H fs pfx p'
  | [], pfx, e, h => by simp [reflectStruct] at h
  | (g, w) :: rest, pfx, e, h =>
    failure_step H env g w rest pfx e h (failure_anatomy_nested H env w)
      (failure_anatomy H env rest pfx)
end

/-- What a leaf holds after `setDefault` failed on it: what it held, except for a
string field tagged required whose variable is set to the empty string, which
holds the empty string (defs.go:174-176 store the value before testing it). -/
theorem setDefault_leaf_err_fst (H : Host) (env : Env) (field : StructField)
    (fValue : Value) (pfx : String) (e : Error) (hleaf : fValue.isLeaf = true)
    (h : (setDefault H env field fValue pfx).2 = .err e) :
    (setDefault H env field fValue pfx).1 = fValue ∨
      ∃ old, fValue = .scalar (.string old) ∧
        (envOptsOf H field (flagNameOf H field pfx)).envRequired = true ∧
        env (envOptsOf H field (flagNameOf H field pfx)).envName = some "" ∧
        (setDefault H env field fValue pfx).1 = .scalar (.string "") := by
  by_cases hk : (envOptsOf H field (flagNameOf H field pfx)).envTag = "-" ∨
      env (envOptsOf H field (flagNameOf H field pfx)).envName = none
  · exact Or.inl (setDefault_leaf_fst_of_kept H env field fValue pfx hleaf hk)
  · rw [not_or] at hk
    obtain ⟨htag, hnone⟩ := hk
    rcases Value.isLeaf_cases fValue hleaf with ⟨s, rfl⟩ | ⟨typ, dyn, rfl⟩
    · rw [setDefault] at h ⊢
      split
      · exact Or.inl rfl
      · next hf =>
        rw [if_neg hf] at h
        unfold setLeaf at h ⊢
        simp only [] at h ⊢
        generalize envOptsOf H field (flagNameOf H field pfx) = o at h htag hnone ⊢
        cases hres : env o.envName with
        | none => exact absurd hres hnone
        | some res =>
          cases s with
          | int n =>
            cases ha : Atoi H.IntSize res <;>
              simp [htag, hres, ha, lookupEnv, Value.interface, Value.typeString,
                Scalar.typeString] at h ⊢
          | int64 n =>
            cases ha : ParseInt res 64 <;>
              simp [htag, hres, ha, lookupEnv, Value.interface, Value.typeString,
                Scalar.typeString] at h ⊢
          | float64 n =>
            cases ha : H.ParseFloat res <;>
              simp [htag, hres, ha, lookupEnv, Value.interface, Value.typeString,
                Scalar.typeString] at h ⊢
          | bool b =>
            by_cases hb : ToUpper res = "TRUE" ∨ ToUpper res = "1" <;>
              simp [htag, hres, hb, lookupEnv, Value.interface, Value.typeString,
                Scalar.typeString] at h ⊢
          | string v =>
            by_cases hr : o.envRequired = true ∧ res = ""
            · obtain ⟨hr1, hr2⟩ := hr
              subst hr2
              simp [htag, hres, hr1, lookupEnv, Value.interface, Value.typeString,
                Scalar.typeString]
            · simp [htag, hres, hr, lookupEnv, Value.interface, Value.typeString,
                Scalar.typeString] at h
          | duration n =>
            cases ha : H.ParseDuration res <;>
              simp [htag, hres, ha, lookupEnv, Value.interface, Value.typeString,
                Scalar.typeString] at h ⊢
          | other typ repr =>
            simp [htag, hres, lookupEnv, Value.interface]
    · left
      rw [setDefault]
      split
      · rfl
      · exact setLeaf_iface_fst H env field typ dyn _

/-- C13, the claim as stated fails: the field `Need`, tagged required and
holding "abc", with `NEED_IT` set to the empty string: `ReadDefaults` returns an
error and the failing field itself no longer holds its value, it holds the empty
string. -/
theorem failing_field_counterexample :
    ReadDefaults host64 (setenv emptyEnv "NEED_IT" "") (.ptrStruct (needStruct "abc")) =
      (.ptrStruct (needStruct ""), .err (.required "NEED_IT")) := by
  rfl

/-- C13, amended: whenever `ReadDefaults` returns an error there is a failing
leaf, the one whose error is returned (wrapped by the enclosing fields), such
that every field after it in depth-first declaration order holds its value of
before the call, and the failing leaf does too, unless it is a string field
tagged required whose variable is set to the empty string: that one holds the
empty string. Only fields processed before the failing leaf, and in that one case
the failing leaf, can differ from before the call. -/
theorem failure_keeps_later_fields (H : Host) (env : Env) (fs : Fields) (e : Error)
    (h : (ReadDefaults H env (.ptrStruct fs)).2 = .err e) :
    ∃ (fs' : Fields) (p : List Nat) (f : StructField) (v : Value) (q : String) (e0 : Error),
      (ReadDefaults H env (.ptrStruct fs)).1 = .ptrStruct fs' ∧
      fieldAt H fs "" p = some (f, v, q) ∧ v.isLeaf = true ∧
      (setDefault H env f v q).2 = .err e0 ∧
      e = wrapErrors e0 ((ancestorsAt fs p).map (fun a => a.Name)) ∧
      (∀ p', pathAfter p p' = true → fieldAt H fs' "" p' = fieldAt H fs "" p') ∧
      (fieldAt H fs' "" p = some (f, v, q) ∨
        ∃ old, v = .scalar (.string old) ∧
          (envOptsOf H f (flagNameOf H f q)).envRequired = true ∧
          env (envOptsOf H f (flagNameOf H f q)).envName = some "" ∧
          fieldAt H fs' "" p = some (f, .scalar (.string ""), q)) := by
  obtain ⟨p, f, v, q, e0, h1, h2, h3, h4, h5, h6⟩ := failure_anatomy H env fs "" e h
  refine ⟨(reflectStruct H env fs "").1, p, f, v, q, e0, rfl, h1, h2, h3, h4, h6, ?_⟩
  rcases setDefault_leaf_err_fst H env f v q e0 h2 h3 with hv | ⟨old, hv, hr, hk, hs⟩
  · left; rw [h5, hv]
  · right; exact ⟨old, hv, hr, hk, by rw [h5, hs]⟩

/-- The struct `A int; B string` with `A=x` and `B=new` in the environment: the
call fails on `A`, and `B`, which comes after it, keeps its value. -/
theorem failure_keeps_later_fields_witness :
    (ReadDefaults host64 (setenv (setenv emptyEnv "A" "x") "B" "new")
        (.ptrStruct (pairAB 1 "b0"))).2 =
        .err (.conversion (.num ⟨"Atoi", "x", .syntaxErr⟩) "A" "x") ∧
      fieldAt host64 (pairAB 1 "b0") "" [1] =
        some (plainField "B", .scalar (.string "b0"), "") ∧
      ∃ (fs' : Fields) (p : List Nat) (f : StructField) (v : Value) (q : String) (e0 : Error),
        (ReadDefaults host64 (setenv (setenv emptyEnv "A" "x") "B" "new")
          (.ptrStruct (pairAB 1 "b0"))).1 = .ptrStruct fs' ∧
        fieldAt host64 (pairAB 1 "b0") "" p = some (f, v, q) ∧ v.isLeaf = true ∧
        (setDefault host64 (setenv (setenv emptyEnv "A" "x") "B" "new") f v q).2 = .err e0 ∧
        Error.conversion (.num ⟨"Atoi", "x", .syntaxErr⟩) "A" "x" =
          wrapErrors e0 ((ancestorsAt (pairAB 1 "b0") p).map (fun a => a.Name)) ∧
        (∀ p', pathAfter p p' = true →
          fieldAt host64 fs' "" p' = fieldAt host64 (pairAB 1 "b0") "" p') ∧
        (fieldAt host64 fs' "" p = some (f, v, q) ∨
          ∃ old, v = .scalar (.string old) ∧
            (envOptsOf host64 f (flagNameOf host64 f q)).envRequired = true ∧
            setenv (setenv emptyEnv "A" "x") "B" "new"
              (envOptsOf host64 f (flagNameOf host64 f q)).envName = some "" ∧
            fieldAt host64 fs' "" p = some (f, .scalar (.string ""), q)) :=
  ⟨rfl, rfl, failure_keeps_later_fields host64 (setenv (setenv emptyEnv "A" "x") "B" "new")
    (pairAB 1 "b0") _ rfl⟩

/-! ## The text of a wrapped error -/

/-- C16: when `ReadDefaults` returns an error, it comes from a leaf that failed
with an error `e0`, nested under the composite fields C1 (outermost) to Ck
(innermost); the returned error is `e0` wrapped by Ck, then by the fields around
it up to C1, and its text is the text of `e0` followed by "; Ck: field failure"
and so on up to "; C1: field failure". The failure of a top-level leaf is
returned unwrapped. -/
theorem error_names_enclosing_fields (H : Host) (env : Env) (fs : Fields) (e : Error)
    (quote : String → String) (h : (ReadDefaults H env (.ptrStruct fs)).2 = .err e) :
    ∃ (p : List Nat) (f : StructField) (v : Value) (q : String) (e0 : Error),
      fieldAt H fs "" p = some (f, v, q) ∧ v.isLeaf = true ∧
      (setDefault H env f v q).2 = .err e0 ∧
      e = wrapErrors e0 ((ancestorsAt fs p).map (fun a => a.Name)) ∧
      e.message quote =
        e0.message quote ++ failureTrail ((ancestorsAt fs p).map (fun a => a.Name)) ∧
      ∀ i, p = [i] → e = e0 := by
  obtain ⟨p, f, v, q, e0, h1, h2, h3, h4, _, _⟩ := failure_anatomy H env fs "" e h
  refine ⟨p, f, v, q, e0, h1, h2, h3, h4, ?_, ?_⟩
  · rw [h4, message_wrapErrors]
  · intro i hp
    subst hp
    simpa [ancestorsAt, wrapErrors] using h4

/-- The field `MaxRetries` inside `Server` with `SERVER_MAX_RETRIES=x`: the error
of `Atoi` comes back wrapped by `Server`, and its text ends with
"; Server: field failure". -/
theorem error_names_enclosing_fields_witness :
    (ReadDefaults host64 (setenv emptyEnv "SERVER_MAX_RETRIES" "x")
        (.ptrStruct (serverConfig 3))).2 =
        .err (.fieldFailure
          (.conversion (.num ⟨"Atoi", "x", .syntaxErr⟩) "SERVER_MAX_RETRIES" "x") "Server") ∧
      (Error.fieldFailure
          (.conversion (.num ⟨"Atoi", "x", .syntaxErr⟩) "SERVER_MAX_RETRIES" "x")
          "Server").message quotePlain =
        "strconv.Atoi: parsing \"x\": invalid syntax, lookupEnv[SERVER_MAX_RETRIES]: x\n" ++
          "; Server: field failure" ∧
      ∃ (p : List Nat) (f : StructField) (v : Value) (q : String) (e0 : Error),
        fieldAt host64 (serverConfig 3) "" p = some (f, v, q) ∧ v.isLeaf = true ∧
        (setDefault host64 (setenv emptyEnv "SERVER_MAX_RETRIES" "x") f v q).2 = .err e0 ∧
        Error.fieldFailure
            (.conversion (.num ⟨"Atoi", "x", .syntaxErr⟩) "SERVER_MAX_RETRIES" "x") "Server" =
          wrapErrors e0 ((ancestorsAt (serverConfig 3) p).map (fun a => a.Name)) ∧
        (Error.fieldFailure
            (.conversion (.num ⟨"Atoi", "x", .syntaxErr⟩) "SERVER_MAX_RETRIES" "x")
            "Server").message quotePlain =
          e0.message quotePlain ++
            failureTrail ((ancestorsAt (serverConfig 3) p).map (fun a => a.Name)) ∧
        ∀ i, p = [i] →
          Error.fieldFailure
            (.conversion (.num ⟨"Atoi", "x", .syntaxErr⟩) "SERVER_MAX_RETRIES" "x") "Server" =
            e0 :=
  ⟨rfl, by decide, error_names_enclosing_fields host64
    (setenv emptyEnv "SERVER_MAX_RETRIES" "x") (serverConfig 3) _ quotePlain rfl⟩

end Defaults
